import Mathlib

/-!
A shallow embedding of the `worldsim` multi-agent simulator (Python sources:
`agent.py`, `agent_manager.py`, `combat_manager.py`, `group.py`,
`group_manager.py`, `grid_manager.py`, `resource_manager.py`,
`simulation.py`, `helper.py`, `constants.py`) together with theorems that
settle the frozen claims about it.

Modelling conventions:
* Python floats are modelled as rationals (all quantities the claims touch
  are small sums, differences, `min`/`max` and one division, which the
  float representation performs exactly at these magnitudes up to rounding
  that never matters for the claims' statements).
* Python dicts keyed by position are modelled as association lists with
  unique keys; `d[k] = v` replaces in place or appends, `dict.update`
  folds the right dict into the left (later writer wins).
* Python function locals of `Simulation._process_llm_results` are modelled
  as `Option` values carried across loop iterations; reading an unbound
  local is the Python `UnboundLocalError`, which propagates to the nearest
  enclosing `except` exactly as in the source.
* Logging calls (`log_agent_event`, `logging.*`) have no semantic effect
  and are omitted.
-/

namespace WorldSim

/-- Python's two-argument `max` on rationals. -/
def pymax (a b : ℚ) : ℚ := if a ≤ b then b else a

/-- Python's two-argument `min` on rationals. -/
def pymin (a b : ℚ) : ℚ := if a ≤ b then a else b

theorem pymax_eq_max (a b : ℚ) : pymax a b = max a b := (max_def a b).symm

theorem pymin_eq_min (a b : ℚ) : pymin a b = min a b := (min_def a b).symm

/-! ## Constants (constants.py) -/

/-- constants.py: `AGENT_MAX_HP = 100`. -/
def AGENT_MAX_HP : ℚ := 100

/-- constants.py: `AGENT_MAX_RESOURCES = 200`. -/
def AGENT_MAX_RESOURCES : ℚ := 200

/-- constants.py: `GRID_WIDTH = 20`. -/
def GRID_WIDTH : ℤ := 20

/-- constants.py: `GRID_HEIGHT = 20`. -/
def GRID_HEIGHT : ℤ := 20

/-- agent_manager.py `update_agent_perception_and_memory`: `FORGET_THRESHOLD = 100`. -/
def FORGET_THRESHOLD : ℤ := 100

/-! ## Enums (helper.py) -/

/-- helper.py: `class PlanType(Enum)`. -/
inductive PlanType where
  | IDLE
  | GO_TO_POS
  | GO_TO_RESOURCE
  | GO_TO_AGENT
  | FORM_GROUP_WITH
  | ACCEPT_GROUP_FROM
  | ATTACK_TARGET
  | EXPLORE
  | WAITING_LLM
  | RESPOND_TO_GROUP_REQUEST
  | WAITING_GROUP_RESPONSE
deriving DecidableEq, Repr

/-- The `target` slot of a plan / oracle decision: Python `None`, an int id,
a two element coordinate list, or a string. -/
inductive Target where
  | tnone
  | tid (n : ℤ)
  | tpos (x y : ℤ)
  | tstr (s : String)
deriving DecidableEq, Repr

/-- A plan dict `{'plan': ..., 'target': ..., 'path': None}` (the `path`
slot is always `None` in the source and is omitted). -/
structure Plan where
  ptype : PlanType
  target : Target
deriving DecidableEq, Repr

/-- The idle plan `{'plan': PlanType.IDLE, 'target': None, 'path': None}`. -/
def idlePlan : Plan := ⟨.IDLE, .tnone⟩

/-! ## Knowledge maps (the `known_resources` dicts) -/

abbrev Pos := ℤ × ℤ

/-- One knowledge entry `{'type', 'last_seen_quantity', 'last_seen_tick'}`. -/
structure KInfo where
  ktype : String
  lastSeenQuantity : ℚ
  lastSeenTick : ℤ
deriving DecidableEq, Repr

/-- Python `d[p] = v` on a position-keyed dict (association list with unique
keys): replace in place if the key is present, else append. -/
def dset {A : Type} (m : List (Pos × A)) (p : Pos) (v : A) : List (Pos × A) :=
  if m.any (fun e => e.1 = p) then m.map (fun e => if e.1 = p then (p, v) else e)
  else m ++ [(p, v)]

/-- Python `d.get(p)` on a position-keyed dict. -/
def dget {A : Type} (m : List (Pos × A)) (p : Pos) : Option A :=
  (m.find? (fun e => e.1 = p)).map (·.2)

/-- Python `del d[p]` on a position-keyed dict with unique keys. -/
def ddel {A : Type} (m : List (Pos × A)) (p : Pos) : List (Pos × A) :=
  m.filter (fun e => ¬(e.1 = p))

/-- A `known_resources` dict: position-keyed association list with unique keys. -/
abbrev KMap := List (Pos × KInfo)

/-- Python `d[p] = v` on a knowledge dict. -/
def kset (m : KMap) (p : Pos) (v : KInfo) : KMap := dset m p v

/-- Python `d.get(p)` on a knowledge dict. -/
def kget (m : KMap) (p : Pos) : Option KInfo := dget m p

/-- Python `base.update(other)` on knowledge dicts: every entry of `other`
is written into `base`, the later writer winning on shared keys. -/
def kupdate (base other : KMap) : KMap :=
  other.foldl (fun acc e => kset acc e.1 e.2) base

/-! ## Resource deposits (resource_manager.py) -/

/-- One resource deposit `{'type': 'food', 'quantity': N}`. -/
structure RInfo where
  rtype : String
  quantity : ℚ
deriving DecidableEq, Repr

abbrev RMap := List (Pos × RInfo)

/-- Python `d[p] = v` on a resource dict (unique keys). -/
def rset (m : RMap) (p : Pos) (v : RInfo) : RMap := dset m p v

/-- Python `d.get(p)` on a resource dict. -/
def rget (m : RMap) (p : Pos) : Option RInfo := dget m p

/-- Python `del d[p]` on a resource dict with unique keys. -/
def rdel (m : RMap) (p : Pos) : RMap := ddel m p

/-! ## Agents (agent.py) -/

/-- The per-agent state of `class Agent` (agent.py).  Fields the claims never
touch (`llm_config`, `history_log`, `current_action`,
`ticks_since_last_llm_decision`) are omitted; `color` is an opaque token. -/
structure Agent where
  id : ℕ
  x : ℤ
  y : ℤ
  hp : ℚ
  maxHp : ℚ
  resourceLevel : ℚ
  baseStrength : ℚ
  baseDefense : ℚ
  baseFightingAbility : ℚ
  harvestRate : ℚ
  groupId : Option ℕ
  inCombatWithGroup : Option ℕ
  inCombatWithAgent : Option ℕ
  pendingGroupRequestTo : Option ℕ
  pendingGroupRequestsFrom : List ℕ
  groupRequestPendingDecision : Bool
  isWaitingForLlm : Bool
  knownResources : KMap
  currentPlan : Plan
  color : ℕ
  simulationTimeStep : ℤ
  visitedTrail : List (Pos × ℤ)
deriving DecidableEq, Repr

/-- agent.py `is_alive`: `self.hp > 0`. -/
def Agent.isAlive (a : Agent) : Bool := 0 < a.hp

/-- agent.py `in_combat` property:
`self.in_combat_with_group is not None or self.in_combat_with_agent is not None`. -/
def Agent.inCombat (a : Agent) : Bool :=
  a.inCombatWithGroup.isSome || a.inCombatWithAgent.isSome

/-- agent.py `take_damage`: dead agents are skipped, damage is floored at 0,
hp is clamped at 0 after subtraction. -/
def Agent.takeDamage (a : Agent) (amount : ℚ) : Agent :=
  if a.isAlive then { a with hp := pymax 0 (a.hp - pymax 0 amount) } else a

/-- agent.py `collect_resource`: add and clamp at `AGENT_MAX_RESOURCES`. -/
def Agent.collectResource (a : Agent) (amount : ℚ) : Agent :=
  { a with resourceLevel := pymin AGENT_MAX_RESOURCES (a.resourceLevel + amount) }

/-- agent.py `clear_pending_group_requests` (lines 91-101): clears the outgoing
request, the incoming request set and the `group_request_pending_decision` flag. -/
def Agent.clearPendingGroupRequests (a : Agent) : Agent :=
  { a with pendingGroupRequestTo := none
           pendingGroupRequestsFrom := []
           groupRequestPendingDecision := false }

/-- agent.py `set_new_plan`: dead agents are skipped; otherwise the plan is
replaced and `is_waiting_for_llm` cleared.  (The callers modelled here always
pass a dict with a `plan` key, so the missing-key repair branch never fires.) -/
def Agent.setNewPlan (a : Agent) (p : Plan) : Agent :=
  if a.isAlive then { a with currentPlan := p, isWaitingForLlm := false } else a

/-! ## Groups (group.py) -/

/-- The state of `class Group` (group.py).  `member_ids` is a Python set,
modelled as a duplicate-free list. -/
structure Group where
  id : ℕ
  memberIds : List ℕ
  groupStrength : ℚ
  groupDefense : ℚ
  groupFightingAbility : ℚ
  totalHp : ℚ
  inCombatWithGroup : Option ℕ
  inCombatWithAgent : Option ℕ
  color : ℕ
  groupKnownResources : KMap
deriving DecidableEq, Repr

/-- group.py `in_combat` property. -/
def Group.inCombat (g : Group) : Bool :=
  g.inCombatWithGroup.isSome || g.inCombatWithAgent.isSome

/-! ## The simulation state -/

/-- The mutable state shared by the managers: the agent dict
(`AgentManager.agents`, insertion ordered), the group dict
(`GroupManager.groups`), the two id counters, the resource dict
(`ResourceManager.resources`) and the resource markers placed on the grid
(`GridManager.grid`; agents' grid cells are recoverable from their
coordinates, so only the resource markers are stored — the Python markers
alias the `resources` dicts, which is modelled by updating both copies in
lockstep). -/
structure Sim where
  agents : List Agent
  groups : List Group
  nextAgentId : ℕ
  nextGroupId : ℕ
  resources : RMap
  gridResources : RMap
  gridW : ℤ
  gridH : ℤ
deriving DecidableEq, Repr

/-- agent_manager.py `get_agent`: `self.agents.get(agent_id)`. -/
def getAgent (s : Sim) (i : ℕ) : Option Agent :=
  s.agents.find? (fun a => a.id = i)

/-- group_manager.py `get_group`: `self.groups.get(group_id)`. -/
def getGroup (s : Sim) (i : ℕ) : Option Group :=
  s.groups.find? (fun g => g.id = i)

/-- In-place mutation of the agent object with id `i`. -/
def setAgent (s : Sim) (i : ℕ) (f : Agent → Agent) : Sim :=
  { s with agents := s.agents.map (fun a => if a.id = i then f a else a) }

/-- In-place mutation of the group object with id `i`. -/
def setGroup (s : Sim) (i : ℕ) (f : Group → Group) : Sim :=
  { s with groups := s.groups.map (fun g => if g.id = i then f g else g) }

/-- helper.py `manhattan_distance`. -/
def manhattanDistance (p q : Pos) : ℤ :=
  |p.1 - q.1| + |p.2 - q.2|

/-- grid_manager.py `is_valid_coordinate`. -/
def isValidCoordinate (s : Sim) (x y : ℤ) : Bool :=
  0 ≤ x && x < s.gridW && 0 ≤ y && y < s.gridH

/-! ## Group membership helpers (group.py) -/

/-- group.py `get_member_agents`: the list of member agents that exist, are
alive and whose `group_id` still points at this group.  (The source also
lazily deletes the ids it skips from `member_ids` as a side effect; on
states whose membership lists are consistent — the hypothesis carried by
every theorem below that touches groups — that side effect is the identity,
so the returned list is all that matters.) -/
def Group.memberAgents (g : Group) (s : Sim) : List Agent :=
  g.memberIds.filterMap (fun i =>
    match getAgent s i with
    | some a => if a.isAlive && a.groupId = some g.id then some a else none
    | none => none)

/-- group.py `update_stats`: sums of the living members' base stats and hp,
zeros for an empty group. -/
def Group.updateStats (g : Group) (s : Sim) : Group :=
  let ms := g.memberAgents s
  if ms.isEmpty then
    { g with groupStrength := 0, groupDefense := 0, groupFightingAbility := 0, totalHp := 0 }
  else
    { g with groupStrength := (ms.map (·.baseStrength)).sum
             groupDefense := (ms.map (·.baseDefense)).sum
             groupFightingAbility := (ms.map (·.baseFightingAbility)).sum
             totalHp := (ms.map (·.hp)).sum }

/-! ## CombatManager (combat_manager.py) -/

/-- Whether an id resolved to an agent or to a group in
`get_combat_participants`. -/
inductive PType where
  | agent
  | group
deriving DecidableEq, Repr

/-- combat_manager.py `get_combat_participants`, for one id: the agent lookup
takes precedence over the group lookup. -/
def resolveParticipant (s : Sim) (i : ℕ) : Option PType :=
  if (getAgent s i).isSome then some .agent
  else if (getGroup s i).isSome then some .group
  else none

/-- `initiate_combat` validation: an agent participant must be alive, a group
participant must have a non-empty `get_member_agents()` list. -/
def participantValid (s : Sim) (i : ℕ) (t : PType) : Bool :=
  match t with
  | .agent => match getAgent s i with
      | some a => a.isAlive
      | none => false
  | .group => match getGroup s i with
      | some g => !(g.memberAgents s).isEmpty
      | none => false

/-- combat_manager.py lines 41-44: the already-fighting test, which reads only
the INITIATOR's combat link toward the target. -/
def alreadyFightingCheck (s : Sim) (i : ℕ) (t1 : PType) (j : ℕ) (t2 : PType) : Bool :=
  let link : Option ℕ × Option ℕ :=  -- (in_combat_with_agent, in_combat_with_group)
    match t1 with
    | .agent => match getAgent s i with
        | some a => (a.inCombatWithAgent, a.inCombatWithGroup)
        | none => (none, none)
    | .group => match getGroup s i with
        | some g => (g.inCombatWithAgent, g.inCombatWithGroup)
        | none => (none, none)
  match t2 with
  | .agent => link.1 = some j
  | .group => link.2 = some j

/-- combat_manager.py lines 47-50: the own-group / same-group rejections. -/
def sameSideCheck (s : Sim) (i : ℕ) (t1 : PType) (j : ℕ) (t2 : PType) : Bool :=
  match t1, t2 with
  | .agent, .group =>
      match getAgent s i with
      | some a => a.groupId = some j
      | none => false
  | .group, .agent =>
      match getAgent s j with
      | some a => a.groupId = some i
      | none => false
  | .agent, .agent =>
      match getAgent s i, getAgent s j with
      | some a, some b => a.groupId.isSome && a.groupId = b.groupId
      | _, _ => false
  | .group, .group => i = j

/-- combat_manager.py `end_combat_for_participant`: clears both combat link
fields of the participant and, for a group, of every agent currently listed
in `member_ids`. -/
def endCombatForParticipant (s : Sim) (i : ℕ) (t : PType) : Sim :=
  match t with
  | .agent =>
      setAgent s i (fun a => { a with inCombatWithAgent := none, inCombatWithGroup := none })
  | .group =>
      match getGroup s i with
      | none => s
      | some g =>
          let s1 := setGroup s i
            (fun g => { g with inCombatWithAgent := none, inCombatWithGroup := none })
          g.memberIds.foldl
            (fun acc mid => setAgent acc mid
              (fun a => { a with inCombatWithAgent := none, inCombatWithGroup := none }))
            s1

/-- The mutual link assignment of `initiate_combat` (lines 63-66) for one
participant: the field matching the opponent's type is set to the opponent's
id, the other field to `None`. -/
def setCombatLink (s : Sim) (i : ℕ) (t : PType) (oppId : ℕ) (oppT : PType) : Sim :=
  let fa : Option ℕ := if oppT = .agent then some oppId else none
  let fg : Option ℕ := if oppT = .group then some oppId else none
  match t with
  | .agent => setAgent s i (fun a => { a with inCombatWithAgent := fa, inCombatWithGroup := fg })
  | .group => setGroup s i (fun g => { g with inCombatWithAgent := fa, inCombatWithGroup := fg })

/-- The member propagation of `initiate_combat` (lines 70-73): every agent in
the group's `get_member_agents()` list gets the same opponent link. -/
def propagateCombatLink (s : Sim) (gid : ℕ) (oppId : ℕ) (oppT : PType) : Sim :=
  match getGroup s gid with
  | none => s
  | some g =>
      let fa : Option ℕ := if oppT = .agent then some oppId else none
      let fg : Option ℕ := if oppT = .group then some oppId else none
      (g.memberAgents s).foldl
        (fun acc m => setAgent acc m.id
          (fun a => { a with inCombatWithAgent := fa, inCombatWithGroup := fg }))
        s

/-- The success tail of `initiate_combat` (lines 56-73): end both sides'
previous combats, set the mutual links, propagate into group members. -/
def initiateCombatLink (s : Sim) (i : ℕ) (t1 : PType) (j : ℕ) (t2 : PType) : Sim :=
  let s1 := endCombatForParticipant s i t1
  let s2 := endCombatForParticipant s1 j t2
  let s3 := setCombatLink s2 i t1 j t2
  let s4 := setCombatLink s3 j t2 i t1
  let s5 := if t1 = .group then propagateCombatLink s4 i j t2 else s4
  if t2 = .group then propagateCombatLink s5 j i t1 else s5

/-- combat_manager.py `initiate_combat` (lines 23-75).  Returns the Python
return value together with the resulting state. -/
def initiateCombat (s : Sim) (initiatorId targetId : ℕ) : Bool × Sim :=
  if initiatorId = targetId then (false, s) else
  match resolveParticipant s initiatorId, resolveParticipant s targetId with
  | none, _ => (false, s)
  | some _, none => (false, s)
  | some t1, some t2 =>
      if ¬participantValid s initiatorId t1 then (false, s) else
      if ¬participantValid s targetId t2 then (false, s) else
      if alreadyFightingCheck s initiatorId t1 targetId t2 then (true, s) else
      if sameSideCheck s initiatorId t1 targetId t2 then (false, s) else
      (true, initiateCombatLink s initiatorId t1 targetId t2)

/-- The stat record produced by `get_combat_stats`. -/
structure CombatStats where
  hp : ℚ
  strength : ℚ
  defense : ℚ
  fighting : ℚ
  memberCount : ℕ
deriving DecidableEq, Repr

/-- combat_manager.py `get_combat_stats`.  For a group the source first runs
`update_stats()` (a side effect returned here as the second component) and
reports `member_count = len(member_ids)`. -/
def getCombatStats (s : Sim) (i : ℕ) (t : PType) : Option CombatStats × Sim :=
  match t with
  | .agent =>
      match getAgent s i with
      | some a =>
          if a.isAlive then
            (some ⟨a.hp, a.baseStrength, a.baseDefense, a.baseFightingAbility, 1⟩, s)
          else (none, s)
      | none => (none, s)
  | .group =>
      match getGroup s i with
      | some g =>
          if (g.memberAgents s).isEmpty then (none, s)
          else
            let s' := setGroup s i (fun g => g.updateStats s)
            match getGroup s' i with
            | some g' =>
                (some ⟨g'.totalHp, g'.groupStrength, g'.groupDefense,
                       g'.groupFightingAbility, g'.memberIds.length⟩, s')
            | none => (none, s')
      | none => (none, s)

/-- combat_manager.py `resolve_combat_round`, inner `calculate_damage` with
the `random.uniform(0.8, 1.2)` draw exposed as the parameter `r`:
`max(0, fighting * r - defense)`. -/
def calculateDamage (attackerFighting defenderDefense r : ℚ) : ℚ :=
  pymax 0 (attackerFighting * r - defenderDefense)

/-- combat_manager.py `resolve_combat_round`, inner `apply_damage`: a lone
agent takes the whole amount, a group splits it evenly over the CURRENT
`get_member_agents()` (living members), each member going through
`take_damage`. -/
def applyDamage (s : Sim) (i : ℕ) (t : PType) (total : ℚ) : Sim :=
  match t with
  | .agent => setAgent s i (fun a => a.takeDamage total)
  | .group =>
      match getGroup s i with
      | none => s
      | some g =>
          let members := g.memberAgents s
          if members.isEmpty then s
          else
            let per := total / (members.length : ℚ)
            members.foldl (fun acc m => setAgent acc m.id (fun a => a.takeDamage per)) s

/-- combat_manager.py `end_combat`: clears the combat state of both sides. -/
def endCombat (s : Sim) (i : ℕ) (t1 : PType) (j : ℕ) (t2 : PType) : Sim :=
  endCombatForParticipant (endCombatForParticipant s i t1) j t2

/-- combat_manager.py `resolve_combat_round` (lines 96-150), with the two
`random.uniform(0.8, 1.2)` draws exposed as `r12` (damage from `i` to `j`)
and `r21`. -/
def resolveCombatRound (s : Sim) (i : ℕ) (t1 : PType) (j : ℕ) (t2 : PType)
    (r12 r21 : ℚ) : Sim :=
  let (stats1, sa) := getCombatStats s i t1
  let (stats2, sb) := getCombatStats sa j t2
  match stats1, stats2 with
  | some st1, some st2 =>
      let damage12 := calculateDamage st1.fighting st2.defense r12
      let damage21 := calculateDamage st2.fighting st1.defense r21
      let sc := applyDamage sb j t2 damage12
      let sd := applyDamage sc i t1 damage21
      let (stats1', se) := getCombatStats sd i t1
      let (stats2', sf) := getCombatStats se j t2
      if stats1'.isNone || stats2'.isNone then endCombat sf i t1 j t2 else sf
  | _, _ => endCombat sb i t1 j t2

/-! ## Death and membership cleanup (agent_manager.py, group.py, group_manager.py) -/

/-- group.py `remove_member`: drops the id from `member_ids`; if the agent
object still exists its group affiliation and both combat link fields are
reset; stats are refreshed while members remain. -/
def removeMember (s : Sim) (gid : ℕ) (aid : ℕ) : Sim :=
  match getGroup s gid with
  | none => s
  | some g =>
      if aid ∈ g.memberIds then
        let s1 := setGroup s gid (fun g => { g with memberIds := g.memberIds.erase aid })
        let s2 :=
          match getAgent s1 aid with
          | some _ => setAgent s1 aid (fun a =>
              { a with groupId := none, inCombatWithGroup := none, inCombatWithAgent := none })
          | none => s1
        match getGroup s2 gid with
        | some g' => if g'.memberIds.isEmpty then s2
                     else setGroup s2 gid (fun g => g.updateStats s2)
        | none => s2
      else s

/-- Python `a or b` on two optional ids: `None` AND the id `0` are falsy, so
`a or b` yields `a` only when `a` is a nonzero id. -/
def pyOrId (a b : Option ℕ) : Option ℕ :=
  match a with
  | some n => if n = 0 then b else some n
  | none => b

/-- group_manager.py `disband_group`: pops the group and, if it was linked to
an opponent (`in_combat_with_group or in_combat_with_agent`, with Python
truthiness on ids), re-resolves the pair and runs `end_combat` on it. -/
def disbandGroup (s : Sim) (gid : ℕ) : Sim :=
  match getGroup s gid with
  | none => s
  | some g =>
      let s1 := { s with groups := s.groups.filter (fun h => ¬(h.id = gid)) }
      let oppId := pyOrId g.inCombatWithGroup g.inCombatWithAgent
      match oppId with
      | none => s1
      | some opp =>
          match resolveParticipant s1 gid, resolveParticipant s1 opp with
          | some t1, some t2 => endCombat s1 gid t1 opp t2
          | some t1, none => endCombatForParticipant s1 gid t1
          | none, some t2 => endCombatForParticipant s1 opp t2
          | none, none => s1

/-- group_manager.py `remove_agent_from_group`: delegate to the group, then
disband it if it became empty. -/
def removeAgentFromGroup (s : Sim) (aid gid : ℕ) : Sim :=
  match getGroup s gid with
  | none => s
  | some _ =>
      let s1 := removeMember s gid aid
      match getGroup s1 gid with
      | some g' => if g'.memberIds.isEmpty then disbandGroup s1 gid else s1
      | none => s1

/-- agent_manager.py `clear_pending_requests_involving`: every other agent
drops the removed id from its incoming set and clears its outgoing request
if it pointed at the removed id. -/
def clearPendingRequestsInvolving (s : Sim) (aid : ℕ) : Sim :=
  { s with agents := s.agents.map (fun a =>
      let a1 := if aid ∈ a.pendingGroupRequestsFrom then
                  { a with pendingGroupRequestsFrom := a.pendingGroupRequestsFrom.erase aid }
                else a
      if a1.pendingGroupRequestTo = some aid then
        { a1 with pendingGroupRequestTo := none }
      else a1) }

/-- agent_manager.py `remove_agent`: pop from the dict, drop the grid cell
(implicit here), notify the group, then clear dangling requests. -/
def removeAgent (s : Sim) (aid : ℕ) : Sim :=
  match getAgent s aid with
  | none => s
  | some a =>
      let s1 := { s with agents := s.agents.filter (fun b => ¬(b.id = aid)) }
      let s2 :=
        match a.groupId with
        | some gid => removeAgentFromGroup s1 aid gid
        | none => s1
      clearPendingRequestsInvolving s2 aid

/-- agent_manager.py `AgentManager.__init__` (lines 6-9): the agent registry
starts empty with `next_agent_id = 0`. -/
def agentManagerInit : List Agent × ℕ := ([], 0)

/-- group_manager.py `GroupManager.__init__` (lines 5-9): the group registry
starts empty with `next_group_id = 0`, the same integer namespace agent ids
are drawn from. -/
def groupManagerInit : List Group × ℕ := ([], 0)

/-! ## C10: self-id combat initiation -/

/-- C10: `initiate_combat(i, j)` with `i == j` returns `False` and changes no
state — the guard fires before the ids are even resolved, so it also fires
when `i` names an agent and `j` names the distinct group with the same
number; and both id counters start at 0 in overlapping namespaces, so an
agent can never initiate combat against the group whose numeric id equals
its own. -/
theorem initiateCombat_self_id_rejected :
    agentManagerInit.2 = 0 ∧ groupManagerInit.2 = 0 ∧
    ∀ (s : Sim) (i : ℕ), initiateCombat s i i = (false, s) := by
  refine ⟨rfl, rfl, fun s i => ?_⟩
  simp [initiateCombat]

/-! ## C5: the combat flag invariant -/

/-- At most one of the two opponent fields is set. -/
def Agent.notBothLinks (a : Agent) : Prop :=
  a.inCombatWithAgent = none ∨ a.inCombatWithGroup = none

/-- Every agent in the registry has at most one opponent field set. -/
def NotBothLinks (s : Sim) : Prop :=
  ∀ a ∈ s.agents, a.notBothLinks

instance (a : Agent) : Decidable a.notBothLinks := by
  unfold Agent.notBothLinks; infer_instance

instance (s : Sim) : Decidable (NotBothLinks s) := by
  unfold NotBothLinks; infer_instance

/-- A generic preservation principle for `List.foldl` over states. -/
theorem foldl_preserves {α : Type} {P : Sim → Prop} {step : Sim → α → Sim}
    (h : ∀ s x, P s → P (step s x)) :
    ∀ (l : List α) (s : Sim), P s → P (l.foldl step s) := by
  intro l
  induction l with
  | nil => intro s hs; exact hs
  | cons x xs ih => intro s hs; exact ih (step s x) (h s x hs)

theorem notBothLinks_setAgent {s : Sim} {i : ℕ} {f : Agent → Agent}
    (hf : ∀ a, a.notBothLinks → (f a).notBothLinks)
    (hs : NotBothLinks s) : NotBothLinks (setAgent s i f) := by
  intro b hb
  simp only [setAgent, List.mem_map] at hb
  obtain ⟨a, ha, rfl⟩ := hb
  by_cases hid : a.id = i
  · simp only [hid, if_pos rfl]
    exact hf a (hs a ha)
  · simp only [if_neg hid]
    exact hs a ha

theorem notBothLinks_setGroup {s : Sim} {i : ℕ} {f : Group → Group}
    (hs : NotBothLinks s) : NotBothLinks (setGroup s i f) := hs

theorem notBothLinks_clearLinks {s : Sim} {i : ℕ}
    (hs : NotBothLinks s) :
    NotBothLinks (setAgent s i
      (fun a => { a with inCombatWithAgent := none, inCombatWithGroup := none })) :=
  notBothLinks_setAgent (fun _ _ => Or.inl rfl) hs

theorem notBothLinks_endCombatForParticipant (s : Sim) (i : ℕ) (t : PType)
    (hs : NotBothLinks s) : NotBothLinks (endCombatForParticipant s i t) := by
  cases t with
  | agent => exact notBothLinks_clearLinks hs
  | group =>
      unfold endCombatForParticipant
      cases hg : getGroup s i with
      | none => exact hs
      | some g =>
          refine foldl_preserves (fun s' mid hs' => notBothLinks_clearLinks hs') _ _ ?_
          exact notBothLinks_setGroup hs

theorem notBothLinks_setCombatLink (s : Sim) (i : ℕ) (t : PType) (j : ℕ) (t2 : PType)
    (hs : NotBothLinks s) : NotBothLinks (setCombatLink s i t j t2) := by
  cases t with
  | agent =>
      refine notBothLinks_setAgent (fun a _ => ?_) hs
      cases t2 <;> simp [Agent.notBothLinks]
  | group => exact notBothLinks_setGroup hs

theorem notBothLinks_propagateCombatLink (s : Sim) (gid : ℕ) (j : ℕ) (t2 : PType)
    (hs : NotBothLinks s) : NotBothLinks (propagateCombatLink s gid j t2) := by
  unfold propagateCombatLink
  cases hg : getGroup s gid with
  | none => exact hs
  | some g =>
      refine foldl_preserves (fun s' m hs' => ?_) _ _ hs
      refine notBothLinks_setAgent (fun a _ => ?_) hs'
      cases t2 <;> simp [Agent.notBothLinks]

theorem notBothLinks_initiateCombatLink (s : Sim) (i : ℕ) (t1 : PType) (j : ℕ)
    (t2 : PType) (hs : NotBothLinks s) :
    NotBothLinks (initiateCombatLink s i t1 j t2) := by
  unfold initiateCombatLink
  dsimp only
  have c4 := notBothLinks_setCombatLink _ j t2 i t1
    (notBothLinks_setCombatLink _ i t1 j t2
      (notBothLinks_endCombatForParticipant _ j t2
        (notBothLinks_endCombatForParticipant s i t1 hs)))
  split
  · apply notBothLinks_propagateCombatLink
    split
    · exact notBothLinks_propagateCombatLink _ _ _ _ c4
    · exact c4
  · split
    · exact notBothLinks_propagateCombatLink _ _ _ _ c4
    · exact c4

theorem notBothLinks_initiateCombat (s : Sim) (i j : ℕ)
    (hs : NotBothLinks s) : NotBothLinks (initiateCombat s i j).2 := by
  unfold initiateCombat
  by_cases hij : i = j
  · simpa [hij] using hs
  · simp only [if_neg hij]
    cases h1 : resolveParticipant s i with
    | none => exact hs
    | some t1 =>
        cases h2 : resolveParticipant s j with
        | none => exact hs
        | some t2 =>
            by_cases hv1 : participantValid s i t1
            · by_cases hv2 : participantValid s j t2
              · by_cases haf : alreadyFightingCheck s i t1 j t2
                · simp [hv1, hv2, haf, hs]
                · by_cases hss : sameSideCheck s i t1 j t2
                  · simp [hv1, hv2, haf, hss, hs]
                  · simpa [hv1, hv2, haf, hss] using
                      notBothLinks_initiateCombatLink s i t1 j t2 hs
              · simp [hv1, hv2, hs]
            · simp [hv1, hs]

theorem notBothLinks_takeDamage {s : Sim} {i : ℕ} {amt : ℚ}
    (hs : NotBothLinks s) : NotBothLinks (setAgent s i (fun a => a.takeDamage amt)) := by
  refine notBothLinks_setAgent (fun a ha => ?_) hs
  unfold Agent.takeDamage
  split <;> simpa [Agent.notBothLinks] using ha

theorem notBothLinks_applyDamage (s : Sim) (i : ℕ) (t : PType) (total : ℚ)
    (hs : NotBothLinks s) : NotBothLinks (applyDamage s i t total) := by
  cases t with
  | agent => exact notBothLinks_takeDamage hs
  | group =>
      unfold applyDamage
      cases hg : getGroup s i with
      | none => exact hs
      | some g =>
          by_cases he : (g.memberAgents s).isEmpty
          · simpa [he] using hs
          · simp only [he, if_false, Bool.false_eq_true]
            exact foldl_preserves (fun s' m hs' => notBothLinks_takeDamage hs') _ _ hs

theorem notBothLinks_getCombatStats (s : Sim) (i : ℕ) (t : PType)
    (hs : NotBothLinks s) : NotBothLinks (getCombatStats s i t).2 := by
  cases t <;> unfold getCombatStats <;> dsimp only <;> (repeat' split) <;> exact hs

theorem notBothLinks_endCombat (s : Sim) (i : ℕ) (t1 : PType) (j : ℕ) (t2 : PType)
    (hs : NotBothLinks s) : NotBothLinks (endCombat s i t1 j t2) :=
  notBothLinks_endCombatForParticipant _ j t2 (notBothLinks_endCombatForParticipant s i t1 hs)

theorem notBothLinks_resolveCombatRound (s : Sim) (i : ℕ) (t1 : PType) (j : ℕ)
    (t2 : PType) (r12 r21 : ℚ) (hs : NotBothLinks s) :
    NotBothLinks (resolveCombatRound s i t1 j t2 r12 r21) := by
  unfold resolveCombatRound
  have ha := notBothLinks_getCombatStats s i t1 hs
  have hb := notBothLinks_getCombatStats (getCombatStats s i t1).2 j t2 ha
  dsimp only
  cases h1 : (getCombatStats s i t1).1 with
  | none => simp only [h1]; exact notBothLinks_endCombat _ i t1 j t2 hb
  | some st1 =>
      cases h2 : (getCombatStats (getCombatStats s i t1).2 j t2).1 with
      | none => simp only [h1, h2]; exact notBothLinks_endCombat _ i t1 j t2 hb
      | some st2 =>
          simp only [h1, h2]
          have hc := notBothLinks_applyDamage _ j t2
            (calculateDamage st1.fighting st2.defense r12) hb
          have hd := notBothLinks_applyDamage _ i t1
            (calculateDamage st2.fighting st1.defense r21) hc
          have he := notBothLinks_getCombatStats _ i t1 hd
          have hf := notBothLinks_getCombatStats _ j t2 he
          split
          · exact notBothLinks_endCombat _ i t1 j t2 hf
          · exact hf

theorem notBothLinks_agents_eq {s s' : Sim} (h : s'.agents = s.agents)
    (hs : NotBothLinks s) : NotBothLinks s' := fun a ha => hs a (h ▸ ha)

theorem notBothLinks_removeMember (s : Sim) (gid aid : ℕ)
    (hs : NotBothLinks s) : NotBothLinks (removeMember s gid aid) := by
  unfold removeMember
  cases getGroup s gid with
  | none => exact hs
  | some g =>
      dsimp only
      by_cases hm : aid ∈ g.memberIds
      · simp only [hm, if_true]
        set s1 := setGroup s gid (fun g => { g with memberIds := g.memberIds.erase aid }) with hs1
        have h1 : NotBothLinks s1 := notBothLinks_agents_eq rfl hs
        cases getAgent s1 aid with
        | none =>
            dsimp only
            cases getGroup s1 gid with
            | none => exact h1
            | some g' =>
                dsimp only
                split
                · exact h1
                · exact notBothLinks_agents_eq rfl h1
        | some a0 =>
            dsimp only
            set s2 := setAgent s1 aid (fun a =>
              { a with groupId := none, inCombatWithGroup := none,
                       inCombatWithAgent := none }) with hs2
            have h2 : NotBothLinks s2 :=
              notBothLinks_setAgent (fun a _ => Or.inl rfl) h1
            cases getGroup s2 gid with
            | none => exact h2
            | some g' =>
                dsimp only
                split
                · exact h2
                · exact notBothLinks_agents_eq rfl h2
      · simp [hm, hs]

theorem notBothLinks_filter_agents (s : Sim) (p : Agent → Bool)
    (hs : NotBothLinks s) : NotBothLinks { s with agents := s.agents.filter p } := by
  intro a ha
  exact hs a (List.mem_of_mem_filter ha)

theorem notBothLinks_disbandGroup (s : Sim) (gid : ℕ)
    (hs : NotBothLinks s) : NotBothLinks (disbandGroup s gid) := by
  unfold disbandGroup
  cases getGroup s gid with
  | none => exact hs
  | some g =>
      dsimp only
      have h1 : NotBothLinks { s with groups := s.groups.filter (fun h => ¬(h.id = gid)) } :=
        notBothLinks_agents_eq rfl hs
      cases pyOrId g.inCombatWithGroup g.inCombatWithAgent with
      | none => exact h1
      | some opp =>
          dsimp only
          cases resolveParticipant { s with
              groups := s.groups.filter (fun h => ¬(h.id = gid)) } gid with
          | none =>
              cases resolveParticipant { s with
                  groups := s.groups.filter (fun h => ¬(h.id = gid)) } opp with
              | none => exact h1
              | some t2 => exact notBothLinks_endCombatForParticipant _ opp t2 h1
          | some t1 =>
              cases resolveParticipant { s with
                  groups := s.groups.filter (fun h => ¬(h.id = gid)) } opp with
              | none => exact notBothLinks_endCombatForParticipant _ gid t1 h1
              | some t2 => exact notBothLinks_endCombat _ gid t1 opp t2 h1

theorem notBothLinks_removeAgentFromGroup (s : Sim) (aid gid : ℕ)
    (hs : NotBothLinks s) : NotBothLinks (removeAgentFromGroup s aid gid) := by
  unfold removeAgentFromGroup
  cases getGroup s gid with
  | none => exact hs
  | some g =>
      dsimp only
      have h1 := notBothLinks_removeMember s gid aid hs
      cases getGroup (removeMember s gid aid) gid with
      | none => exact h1
      | some g' =>
          dsimp only
          split
          · exact notBothLinks_disbandGroup _ gid h1
          · exact h1

theorem notBothLinks_clearPendingRequestsInvolving (s : Sim) (aid : ℕ)
    (hs : NotBothLinks s) : NotBothLinks (clearPendingRequestsInvolving s aid) := by
  intro b hb
  simp only [clearPendingRequestsInvolving, List.mem_map] at hb
  obtain ⟨a, ha, rfl⟩ := hb
  have := hs a ha
  unfold Agent.notBothLinks at this ⊢
  split <;> split <;> simpa using this

theorem notBothLinks_removeAgent (s : Sim) (aid : ℕ)
    (hs : NotBothLinks s) : NotBothLinks (removeAgent s aid) := by
  unfold removeAgent
  cases getAgent s aid with
  | none => exact hs
  | some a =>
      dsimp only
      have h1 : NotBothLinks { s with agents := s.agents.filter (fun b => ¬(b.id = aid)) } :=
        notBothLinks_filter_agents s _ hs
      cases a.groupId with
      | none => exact notBothLinks_clearPendingRequestsInvolving _ aid h1
      | some gid =>
          dsimp only
          exact notBothLinks_clearPendingRequestsInvolving _ aid
            (notBothLinks_removeAgentFromGroup _ aid gid h1)

/-- C5: `in_combat` is true iff exactly one of the two opponent fields is set,
and every combat-state-mutating operation (combat initiation, round
resolution, combat end, group membership change, death cleanup) preserves
the at-most-one-opponent-field property from which that equivalence follows. -/
theorem inCombat_iff_exactly_one_link :
    (∀ a : Agent, a.notBothLinks →
      (a.inCombat = true ↔
        ((a.inCombatWithAgent.isSome ∧ a.inCombatWithGroup = none) ∨
         (a.inCombatWithGroup.isSome ∧ a.inCombatWithAgent = none)))) ∧
    (∀ (s : Sim) (i j : ℕ), NotBothLinks s → NotBothLinks (initiateCombat s i j).2) ∧
    (∀ (s : Sim) (i : ℕ) (t : PType), NotBothLinks s →
      NotBothLinks (endCombatForParticipant s i t)) ∧
    (∀ (s : Sim) (i : ℕ) (t1 : PType) (j : ℕ) (t2 : PType) (r12 r21 : ℚ),
      NotBothLinks s → NotBothLinks (resolveCombatRound s i t1 j t2 r12 r21)) ∧
    (∀ (s : Sim) (gid aid : ℕ), NotBothLinks s → NotBothLinks (removeMember s gid aid)) ∧
    (∀ (s : Sim) (aid : ℕ), NotBothLinks s → NotBothLinks (removeAgent s aid)) := by
  refine ⟨fun a ha => ?_, notBothLinks_initiateCombat, notBothLinks_endCombatForParticipant,
    notBothLinks_resolveCombatRound, notBothLinks_removeMember, notBothLinks_removeAgent⟩
  unfold Agent.inCombat Agent.notBothLinks at *
  rcases ha with h | h <;>
    cases hg : a.inCombatWithGroup <;> cases hA : a.inCombatWithAgent <;>
      simp_all

/-! ## Lookup/update lemmas for the agent registry -/

theorem getAgent_some_id {s : Sim} {i : ℕ} {a : Agent}
    (h : getAgent s i = some a) : a.id = i := by
  have := List.find?_some h
  simpa using this

theorem find?_map_setStep (l : List Agent) (i j : ℕ) (f : Agent → Agent)
    (hf : ∀ a, (f a).id = a.id) :
    (l.map (fun a => if a.id = i then f a else a)).find? (fun a => a.id = j)
      = (l.find? (fun a => a.id = j)).map (fun a => if a.id = i then f a else a) := by
  induction l with
  | nil => rfl
  | cons a t ih =>
      have hid : (if a.id = i then f a else a).id = a.id := by
        split
        · exact hf a
        · rfl
      simp only [List.map_cons, List.find?_cons, hid]
      cases hd : decide (a.id = j)
      · simp only [hd, ih]
      · simp only [hd]; rfl

theorem getAgent_setAgent (s : Sim) (i j : ℕ) (f : Agent → Agent)
    (hf : ∀ a, (f a).id = a.id) :
    getAgent (setAgent s i f) j
      = (getAgent s j).map (fun a => if a.id = i then f a else a) := by
  unfold getAgent setAgent
  exact find?_map_setStep s.agents i j f hf

theorem getAgent_setAgent_self {s : Sim} {i : ℕ} {f : Agent → Agent}
    (hf : ∀ a, (f a).id = a.id) :
    getAgent (setAgent s i f) i = (getAgent s i).map f := by
  rw [getAgent_setAgent s i i f hf]
  cases h : getAgent s i with
  | none => rfl
  | some a => simp [getAgent_some_id h]

theorem getAgent_setAgent_ne {s : Sim} {i j : ℕ} {f : Agent → Agent}
    (hf : ∀ a, (f a).id = a.id) (hne : j ≠ i) :
    getAgent (setAgent s i f) j = getAgent s j := by
  rw [getAgent_setAgent s i j f hf]
  cases h : getAgent s j with
  | none => rfl
  | some a =>
      have : a.id = j := getAgent_some_id h
      simp [this, hne]

theorem getAgent_setGroup (s : Sim) (i j : ℕ) (f : Group → Group) :
    getAgent (setGroup s i f) j = getAgent s j := rfl

theorem takeDamage_id (a : Agent) (amt : ℚ) : (a.takeDamage amt).id = a.id := by
  unfold Agent.takeDamage
  split <;> rfl

theorem takeDamage_hp {a : Agent} {amt : ℚ} (halive : a.isAlive = true)
    (h0 : 0 ≤ amt) (hle : amt ≤ a.hp) : (a.takeDamage amt).hp = a.hp - amt := by
  unfold Agent.takeDamage
  rw [if_pos halive]
  have h1 : max 0 amt = amt := max_eq_right h0
  show pymax 0 (a.hp - pymax 0 amt) = a.hp - amt
  rw [pymax_eq_max, pymax_eq_max, h1, max_eq_right (by linarith)]

/-- After the whole damage fold, an id that occurs in none of the fold's
member list keeps its agent untouched. -/
theorem getAgent_damageFold_notmem (l : List Agent) (per : ℚ) (s : Sim) (j : ℕ)
    (hj : ∀ m ∈ l, m.id ≠ j) :
    getAgent (l.foldl (fun acc m => setAgent acc m.id (fun a => a.takeDamage per)) s) j
      = getAgent s j := by
  induction l generalizing s with
  | nil => rfl
  | cons m t ih =>
      simp only [List.foldl_cons]
      rw [ih _ (fun m' hm' => hj m' (List.mem_cons_of_mem m hm'))]
      exact getAgent_setAgent_ne (fun a => takeDamage_id a per)
        (fun h => hj m (List.mem_cons_self m t) h.symm)

/-- After the whole damage fold every listed member's agent has gone through
`take_damage` exactly once (the listed ids being distinct). -/
theorem getAgent_damageFold_mem (l : List Agent) (per : ℚ) :
    ∀ (s : Sim) (m : Agent), m ∈ l → (l.map (·.id)).Nodup →
    getAgent (l.foldl (fun acc m => setAgent acc m.id (fun a => a.takeDamage per)) s) m.id
      = (getAgent s m.id).map (fun a => a.takeDamage per) := by
  induction l with
  | nil => intro s m hm _; cases hm
  | cons m0 t ih =>
      intro s m hm hnd
      simp only [List.map_cons, List.nodup_cons] at hnd
      rcases List.mem_cons.1 hm with rfl | hmt
      · simp only [List.foldl_cons]
        rw [getAgent_damageFold_notmem t per _ m.id
          (fun m' hm' h => hnd.1 (h ▸ List.mem_map_of_mem (·.id) hm'))]
        exact getAgent_setAgent_self (fun a => takeDamage_id a per)
      · simp only [List.foldl_cons]
        rw [ih _ m hmt hnd.2]
        congr 1
        exact getAgent_setAgent_ne (fun a => takeDamage_id a per)
          (fun h => hnd.1 (h ▸ List.mem_map_of_mem (·.id) hmt))

/-- Unpacking membership in `get_member_agents`. -/
theorem mem_memberAgents {g : Group} {s : Sim} {a : Agent}
    (h : a ∈ g.memberAgents s) :
    a.isAlive = true ∧ a.groupId = some g.id ∧ getAgent s a.id = some a := by
  unfold Group.memberAgents at h
  rcases List.mem_filterMap.1 h with ⟨i, _, hfn⟩
  cases hga : getAgent s i with
  | none => rw [hga] at hfn; cases hfn
  | some b =>
      rw [hga] at hfn
      dsimp only at hfn
      split at hfn
      · rename_i hc
        cases hfn
        simp only [Bool.and_eq_true, decide_eq_true_eq] at hc
        refine ⟨hc.1, hc.2, ?_⟩
        rw [getAgent_some_id hga]
        exact hga
      · cases hfn

theorem sum_map_hp_sub (l : List Agent) (per : ℚ) :
    (l.map (fun a => a.hp - per)).sum = (l.map (·.hp)).sum - l.length * per := by
  induction l with
  | nil => simp
  | cons a t ih =>
      simp only [List.map_cons, List.sum_cons, List.length_cons, ih]
      push_cast
      ring

/-! ## C6: combat damage formula and even split -/

/-- C6 (amended): each direction's round damage is
`max(0, fighting * r - defense)` with `r` the `uniform(0.8, 1.2)` draw; a
group defender splits it evenly over its living members, every member being
DEALT exactly `damage / n`; whenever every member's hp covers its share
(and for a lone agent whose hp covers the damage) the hp actually removed
equals the damage — `take_damage` clamps hp at 0, so a weaker victim loses
only its remaining hp. -/
theorem combat_damage_split (s : Sim) (gid : ℕ) (g : Group) (f d r : ℚ)
    (hg : getGroup s gid = some g)
    (hr : (4/5 : ℚ) ≤ r ∧ r ≤ 6/5)
    (hne : (g.memberAgents s).isEmpty = false)
    (hnd : ((g.memberAgents s).map (·.id)).Nodup)
    (hhp : ∀ a ∈ g.memberAgents s,
      calculateDamage f d r / ((g.memberAgents s).length : ℚ) ≤ a.hp) :
    (calculateDamage f d r = max 0 (f * r - d)) ∧
    (∀ a ∈ g.memberAgents s,
      (getAgent (applyDamage s gid .group (calculateDamage f d r)) a.id).map (·.hp)
        = some (a.hp - calculateDamage f d r / ((g.memberAgents s).length : ℚ))) ∧
    (((g.memberAgents s).map (fun a =>
        ((getAgent (applyDamage s gid .group (calculateDamage f d r)) a.id).map
          (·.hp)).getD 0)).sum
      = ((g.memberAgents s).map (·.hp)).sum - calculateDamage f d r) ∧
    (∀ (s2 : Sim) (aid : ℕ) (b : Agent), getAgent s2 aid = some b →
      b.isAlive = true → calculateDamage f d r ≤ b.hp →
      (getAgent (applyDamage s2 aid .agent (calculateDamage f d r)) aid).map (·.hp)
        = some (b.hp - calculateDamage f d r)) := by
  set dmg := calculateDamage f d r with hdmg
  set members := g.memberAgents s with hmembers
  set n : ℚ := (members.length : ℚ) with hn
  have hdmg0 : 0 ≤ dmg := le_max_left 0 _
  have hlen : 0 < members.length := by
    cases hml : members with
    | nil => rw [hml] at hne; simp [List.isEmpty] at hne
    | cons x t => simp [hml]
  have hnpos : (0 : ℚ) < n := by
    rw [hn]; exact_mod_cast hlen
  have hper0 : 0 ≤ dmg / n := div_nonneg hdmg0 (le_of_lt hnpos)
  have happly : applyDamage s gid .group dmg
      = members.foldl (fun acc m => setAgent acc m.id (fun a => a.takeDamage (dmg / n))) s := by
    unfold applyDamage
    rw [hg]
    simp only [← hmembers, hne, Bool.false_eq_true, if_false]
  have hpoint : ∀ a ∈ members,
      (getAgent (applyDamage s gid .group dmg) a.id).map (·.hp)
        = some (a.hp - dmg / n) := by
    intro a ha
    rw [happly, getAgent_damageFold_mem members (dmg / n) s a ha hnd]
    obtain ⟨halive, _, hget⟩ := mem_memberAgents (hmembers ▸ ha)
    rw [hget]
    show some ((a.takeDamage (dmg / n)).hp) = some (a.hp - dmg / n)
    rw [takeDamage_hp halive hper0 (hhp a ha)]
  refine ⟨rfl, hpoint, ?_, ?_⟩
  · have hmapeq : members.map (fun a =>
        ((getAgent (applyDamage s gid .group dmg) a.id).map (·.hp)).getD 0)
        = members.map (fun a => a.hp - dmg / n) := by
      apply List.map_congr_left
      intro a ha
      rw [hpoint a ha]
      rfl
    have hnne : n ≠ 0 := ne_of_gt hnpos
    rw [hmapeq, sum_map_hp_sub, ← hn, mul_comm n (dmg / n), div_mul_cancel₀ dmg hnne]
  · intro s2 aid b hget halive hle
    unfold applyDamage
    rw [getAgent_setAgent_self (fun a => takeDamage_id a dmg), hget]
    show some ((b.takeDamage dmg).hp) = some (b.hp - dmg)
    rw [takeDamage_hp halive hdmg0 hle]

/-! ## Movement (agent_manager.py `_execute_move`, grid_manager.py `move_object`) -/

/-- Python truthiness of a value that is `None`, `False` or `True`. -/
def pyTruthy : Option Bool → Bool
  | some true => true
  | _ => false

/-- The direction table shared by `_execute_move` and the plan step. -/
def moveMap (d : String) : Option (ℤ × ℤ) :=
  if d = "N" then some (0, -1) else if d = "S" then some (0, 1)
  else if d = "E" then some (1, 0) else if d = "W" then some (-1, 0)
  else if d = "NE" then some (1, -1) else if d = "NW" then some (-1, -1)
  else if d = "SE" then some (1, 1) else if d = "SW" then some (-1, 1)
  else none

/-- Whether any agent object occupies the given grid cell (the grid keeps
agents exactly at their coordinates). -/
def agentOccupies (s : Sim) (x y : ℤ) : Bool :=
  s.agents.any (fun a => a.x = x && a.y = y)

/-- deque(maxlen=MAX_TRAIL_LENGTH).append: keep the most recent 15 entries. -/
def trailAppend (t : List (Pos × ℤ)) (e : Pos × ℤ) : List (Pos × ℤ) :=
  let t' := t ++ [e]
  if 15 < t'.length then t'.drop (t'.length - 15) else t'

/-- grid_manager.py `move_object` for an agent: an invalid destination fails;
otherwise the object is re-placed (placement at a valid coordinate always
succeeds) and the agent's coordinates are updated. -/
def moveObjectAgent (s : Sim) (aid : ℕ) (newx newy : ℤ) : Bool × Sim :=
  if ¬isValidCoordinate s newx newy then (false, s)
  else (true, setAgent s aid (fun a => { a with x := newx, y := newy }))

/-- agent_manager.py `_execute_move` (lines 472-505).  The first component is
the Python return value: `False` on a blocked or out-of-bounds move, and —
faithfully to the source, which has no `return` on the success path or the
unknown-direction path — `None` (here `none`) otherwise. -/
def executeMove (s : Sim) (aid : ℕ) (direction : String) (now : ℤ) :
    Option Bool × Sim :=
  match moveMap direction with
  | none => (none, s)
  | some (dx, dy) =>
      match getAgent s aid with
      | none => (none, s)
      | some a =>
          let newx := a.x + dx
          let newy := a.y + dy
          if isValidCoordinate s newx newy then
            if agentOccupies s newx newy then (some false, s)
            else
              let (ok, s1) := moveObjectAgent s aid newx newy
              if ok then
                (none, setAgent s1 aid (fun b =>
                  { b with visitedTrail := trailAppend b.visitedTrail ((newx, newy), now) }))
              else (none, s1)
          else (some false, s)

/-! ## Harvesting (resource_manager.py `harvest_resource_at`) -/

/-- resource_manager.py `harvest_resource_at` (lines 65-108).  The grid marker
dict aliases the `resources` dict in the source, so both copies are updated in
lockstep; on depletion the entry is removed from the resource map and the
marker from the grid. -/
def harvestResourceAt (s : Sim) (aid : ℕ) (p : Pos) (amount : ℚ) : Bool × Sim :=
  match rget s.resources p with
  | none => (false, s)
  | some info =>
      let actual := pymin amount info.quantity
      if actual ≤ 0 then (false, s)
      else
        let s1 := setAgent s aid (fun a => a.collectResource actual)
        let newQty := info.quantity - actual
        let s2 := { s1 with resources := rset s1.resources p { info with quantity := newQty }
                            gridResources := rset s1.gridResources p { info with quantity := newQty } }
        if newQty ≤ 0 then
          (true, { s2 with resources := rdel s2.resources p
                           gridResources := rdel s2.gridResources p })
        else (true, s2)

/-! ## Plan execution for the GoTo plans
(agent_manager.py `execute_agent_plan_step`, lines 199-217 and 282-408) -/

/-- Agent lookup by a Python int id (negative ids find nothing). -/
def getAgentZ (s : Sim) (z : ℤ) : Option Agent :=
  s.agents.find? (fun a => (a.id : ℤ) = z)

/-- The in-place update `agent.known_resources[pos] = entry`. -/
def withKnowledge (p : Pos) (e : KInfo) (b : Agent) : Agent :=
  { b with knownResources := kset b.knownResources p e }

/-- The arrival-at-resource branch of `execute_agent_plan_step`
(lines 307-357): incremental harvesting with
`min(harvest_rate, quantity, capacity_headroom)`, the agent's own knowledge
entry refreshed to the post-harvest quantity, and the plan kept at
`GO_TO_RESOURCE` unless the deposit is exhausted or the agent is full. -/
def harvestArrivalStep (s : Sim) (aid : ℕ) (a : Agent) : Sim :=
  let pos : Pos := (a.x, a.y)
  let agentFull : Bool := AGENT_MAX_RESOURCES ≤ a.resourceLevel
  match rget s.resources pos with
  | some info =>
      if 0 < info.quantity ∧ ¬agentFull then
        let amountThisTick := pymin a.harvestRate
          (pymin info.quantity (AGENT_MAX_RESOURCES - a.resourceLevel))
        if 0 < amountThisTick then
          let (hsucc, s1) := harvestResourceAt s aid pos amountThisTick
          let s2 :=
            if hsucc then
              let newQuantity := match rget s1.resources pos with
                | some u => u.quantity
                | none => 0
              let entry : KInfo := ⟨info.rtype, newQuantity, a.simulationTimeStep⟩
              setAgent s1 aid (withKnowledge pos entry)
            else s1
          let resourceHasQuantity : Bool := match rget s2.resources pos with
            | some u => 0 < u.quantity
            | none => false
          let agentFullNow : Bool := match getAgent s2 aid with
            | some b => AGENT_MAX_RESOURCES ≤ b.resourceLevel
            | none => false
          if ¬resourceHasQuantity ∨ agentFullNow then
            setAgent s2 aid (fun b => b.setNewPlan idlePlan)
          else s2
        else setAgent s aid (fun b => b.setNewPlan idlePlan)
      else setAgent s aid (fun b => b.setNewPlan idlePlan)
  | none => setAgent s aid (fun b => b.setNewPlan idlePlan)

/-- agent_manager.py `execute_agent_plan_step` restricted to the `GoTo` plans:
the entry guards (agent missing/dead/in combat, lines 201-204), the inert
waiting states (lines 210-217), and the branch
`plan_type in [GO_TO_POS, GO_TO_RESOURCE, GO_TO_AGENT]` (lines 282-408) with
its target validation, arrival behaviors and the one-step greedy move.  For
every other plan type this function leaves the state unchanged and is not
used by any theorem.  (A `GO_TO_POS`/`GO_TO_RESOURCE` plan whose target is a
non-coordinate value degrades to `Idle` at line 297; a `GO_TO_AGENT` target
that is not an int cannot arise from the validated plans.) -/
def executeGoToPlanStep (s : Sim) (aid : ℕ) : Sim :=
  match getAgent s aid with
  | none => s
  | some a =>
      if ¬a.isAlive ∨ a.inCombat then s
      else
        let planType := a.currentPlan.ptype
        if planType = .WAITING_LLM ∨ planType = .WAITING_GROUP_RESPONSE ∨
           planType = .RESPOND_TO_GROUP_REQUEST then s
        else if planType = .GO_TO_POS ∨ planType = .GO_TO_RESOURCE ∨
                planType = .GO_TO_AGENT then
          match a.currentPlan.target with
          | .tnone => setAgent s aid (fun b => b.setNewPlan idlePlan)
          | t =>
              let targetPos : Option Pos :=
                if planType = .GO_TO_AGENT then
                  match t with
                  | .tid n =>
                      match getAgentZ s n with
                      | some ta => if ta.isAlive then some (ta.x, ta.y) else none
                      | none => none
                  | _ => none
                else
                  match t with
                  | .tpos x y => some (x, y)
                  | _ => none
              match targetPos with
              | none => setAgent s aid (fun b => b.setNewPlan idlePlan)
              | some tp =>
                  if (a.x, a.y) = tp then
                    -- arrival
                    if planType = .GO_TO_RESOURCE then harvestArrivalStep s aid a
                    else if planType = .GO_TO_AGENT then
                      match t with
                      | .tid n =>
                          let s1 :=
                            match getAgentZ s n with
                            | some ta =>
                                if a.groupId = none ∧ ta.isAlive ∧ ta.groupId = none then
                                  let s1a := setAgent s aid (fun b =>
                                    { b with pendingGroupRequestTo := some ta.id })
                                  setAgent s1a ta.id (fun b =>
                                    { b with pendingGroupRequestsFrom :=
                                        if aid ∈ b.pendingGroupRequestsFrom then
                                          b.pendingGroupRequestsFrom
                                        else b.pendingGroupRequestsFrom ++ [aid] })
                                else s
                            | none => s
                          setAgent s1 aid (fun b => b.setNewPlan idlePlan)
                      | _ => setAgent s aid (fun b => b.setNewPlan idlePlan)
                    else setAgent s aid (fun b => b.setNewPlan idlePlan)
                  else
                    -- one greedy step: vertical component then horizontal component
                    let dx := tp.1 - a.x
                    let dy := tp.2 - a.y
                    let v : String := if 0 < dy then "S" else if dy < 0 then "N" else ""
                    let h : String := if 0 < dx then "E" else if dx < 0 then "W" else ""
                    let moveDir := v ++ h
                    if moveDir ≠ "" then
                      let (ret, s1) := executeMove s aid moveDir a.simulationTimeStep
                      if ¬pyTruthy ret then
                        setAgent s1 aid (fun b => b.setNewPlan idlePlan)
                      else s1
                    else setAgent s aid (fun b => b.setNewPlan idlePlan)
        else s

/-! ## Dict lookup lemmas -/

theorem find?_p_map_replace {A : Type} (m : List (Pos × A)) (p : Pos) (v : A)
    (h : m.any (fun e => e.1 = p) = true) :
    (m.map (fun e => if e.1 = p then (p, v) else e)).find? (fun e => e.1 = p)
      = some (p, v) := by
  induction m with
  | nil => simp at h
  | cons e t ih =>
      by_cases hep : e.1 = p
      · simp [List.find?_cons, hep]
      · simp only [List.any_cons, Bool.or_eq_true, decide_eq_true_eq] at h
        rcases h with h | h
        · exact absurd h hep
        · simp only [List.map_cons, if_neg hep, List.find?_cons]
          rw [decide_eq_false hep]
          exact ih h

theorem find?_q_map_replace {A : Type} (m : List (Pos × A)) (p q : Pos) (v : A)
    (hq : q ≠ p) :
    (m.map (fun e => if e.1 = p then (p, v) else e)).find? (fun e => e.1 = q)
      = m.find? (fun e => e.1 = q) := by
  induction m with
  | nil => rfl
  | cons e t ih =>
      by_cases hep : e.1 = p
      · have h1 : decide (e.1 = q) = false :=
          decide_eq_false (fun hc => hq (hc.symm.trans hep))
        have h2 : decide ((p, v).1 = q) = false :=
          decide_eq_false (fun hc => hq hc.symm)
        simp only [List.map_cons, if_pos hep, List.find?_cons]
        rw [h2, h1]
        exact ih
      · simp only [List.map_cons, if_neg hep, List.find?_cons]
        cases hd : decide (e.1 = q)
        · simp only [ih]
        · rfl

theorem dget_dset_self {A : Type} (m : List (Pos × A)) (p : Pos) (v : A) :
    dget (dset m p v) p = some v := by
  unfold dset dget
  by_cases h : m.any (fun e => e.1 = p)
  · rw [if_pos h, find?_p_map_replace m p v h]
    rfl
  · rw [if_neg h]
    have hnone : m.find? (fun e => e.1 = p) = none := by
      rw [List.find?_eq_none]
      intro e he
      simp only [List.any_eq_true, decide_eq_true_eq] at h
      simp only [decide_eq_true_eq]
      exact fun hep => h ⟨e, he, hep⟩
    rw [List.find?_append, hnone]
    simp [List.find?_cons]

theorem dget_dset_ne {A : Type} (m : List (Pos × A)) (p q : Pos) (v : A)
    (hq : q ≠ p) : dget (dset m p v) q = dget m q := by
  unfold dset dget
  by_cases h : m.any (fun e => e.1 = p)
  · rw [if_pos h]
    congr 1
    exact find?_q_map_replace m p q v hq
  · rw [if_neg h]
    rw [List.find?_append]
    have h2 : [(p, v)].find? (fun e => e.1 = q) = none := by
      have hd : decide ((p, v).1 = q) = false := decide_eq_false (fun hc => hq hc.symm)
      simp [List.find?_cons, hd]
    rw [h2]
    cases m.find? (fun e => e.1 = q) <;> rfl

theorem dget_ddel_self {A : Type} (m : List (Pos × A)) (p : Pos) :
    dget (ddel m p) p = none := by
  unfold ddel dget
  have : (m.filter (fun e => ¬(e.1 = p))).find? (fun e => e.1 = p) = none := by
    rw [List.find?_eq_none]
    intro e he
    have := List.of_mem_filter he
    simpa using this
  rw [this]
  rfl

theorem dget_ddel_ne {A : Type} (m : List (Pos × A)) (p q : Pos)
    (hq : q ≠ p) : dget (ddel m p) q = dget m q := by
  unfold ddel dget
  congr 1
  induction m with
  | nil => rfl
  | cons e t ih =>
      simp only [List.filter_cons, List.find?_cons]
      by_cases hep : e.1 = p
      · have h1 : decide (e.1 = q) = false :=
          decide_eq_false (fun hc => hq (hc.symm.trans hep))
        have h2 : (decide (¬(e.1 = p))) = false := by simp [hep]
        simp only [h2, h1, Bool.false_eq_true, if_false]
        exact ih
      · have h2 : (decide (¬(e.1 = p))) = true := by simp [hep]
        simp only [h2, if_true, List.find?_cons]
        cases hd : decide (e.1 = q)
        · simp only [hd]
          exact ih
        · simp only [hd]

/-! ## Concrete states for witnesses and counterexamples -/

/-- A concrete agent of the shape `Agent.__init__` produces, with the
randomized stats pinned to fixed values. -/
def mkAgent (i : ℕ) (x y : ℤ) : Agent where
  id := i
  x := x
  y := y
  hp := AGENT_MAX_HP
  maxHp := AGENT_MAX_HP
  resourceLevel := 100
  baseStrength := 10
  baseDefense := 5
  baseFightingAbility := 12
  harvestRate := 3
  groupId := none
  inCombatWithGroup := none
  inCombatWithAgent := none
  pendingGroupRequestTo := none
  pendingGroupRequestsFrom := []
  groupRequestPendingDecision := false
  isWaitingForLlm := false
  knownResources := []
  currentPlan := idlePlan
  color := i
  simulationTimeStep := 0
  visitedTrail := []

/-- A concrete group record. -/
def mkGroup (i : ℕ) (mems : List ℕ) : Group where
  id := i
  memberIds := mems
  groupStrength := 0
  groupDefense := 0
  groupFightingAbility := 0
  totalHp := 0
  inCombatWithGroup := none
  inCombatWithAgent := none
  color := 0
  groupKnownResources := []

/-- A concrete simulation state over the standard 20x20 grid. -/
def mkSim (ags : List Agent) (gs : List Group) : Sim where
  agents := ags
  groups := gs
  nextAgentId := ags.length
  nextGroupId := gs.length
  resources := []
  gridResources := []
  gridW := GRID_WIDTH
  gridH := GRID_HEIGHT

/-- State for the C5 witness: two free agents. -/
def simC5w : Sim := mkSim [mkAgent 0 0 0, mkAgent 1 1 0] []

theorem inCombat_iff_exactly_one_link_witness :
    NotBothLinks simC5w ∧ NotBothLinks (initiateCombat simC5w 0 1).2 :=
  ⟨by decide, inCombat_iff_exactly_one_link.2.1 simC5w 0 1 (by decide)⟩

/-- State for the C6 counterexample: a lone defender with hp 3 and defense 2. -/
def simC6 : Sim := mkSim [{ mkAgent 0 0 0 with hp := 3, baseDefense := 2 }] []

/-- C6 counterexample: with attacker fighting ability 12, defender defense 2
and draw `r = 1` (inside `[0.8, 1.2]`), the computed round damage is 10, but
the defender standing at hp 3 ends at hp 0 — the hp removed is 3, not the
computed round damage, so damage is NOT applied in full: `take_damage`
clamps at zero. -/
theorem combat_damage_clamp_counterexample :
    calculateDamage 12 2 1 = 10 ∧
    ((4 : ℚ) / 5 ≤ 1 ∧ (1 : ℚ) ≤ 6 / 5) ∧
    (getAgent simC6 0).map (·.hp) = some 3 ∧
    (getAgent (applyDamage simC6 0 .agent (calculateDamage 12 2 1)) 0).map (·.hp)
      = some 0 ∧
    ¬((3 : ℚ) - 0 = calculateDamage 12 2 1) := by
  refine ⟨?_, ⟨by norm_num, by norm_num⟩, ?_, ?_, ?_⟩
  · norm_num [calculateDamage, pymax]
  · norm_num [simC6, mkSim, mkAgent, getAgent, List.find?]
  · norm_num [applyDamage, setAgent, getAgent, simC6, mkSim, mkAgent, Agent.takeDamage,
      Agent.isAlive, calculateDamage, pymax, AGENT_MAX_HP, List.find?]
  · norm_num [calculateDamage, pymax]

/-- Group for the C6 witness. -/
def grpC6w : Group := mkGroup 0 [0, 1]

/-- State for the C6 witness: a two-member group at full hp. -/
def simC6w : Sim :=
  mkSim [{ mkAgent 0 0 0 with groupId := some 0 },
         { mkAgent 1 1 0 with groupId := some 0 }] [grpC6w]

/-- State for the C2 evaluation: a lone agent at (0,0) heading for (0,2) on
the empty 20x20 grid — nothing blocks the move. -/
def simC2 : Sim :=
  mkSim [{ mkAgent 0 0 0 with currentPlan := ⟨.GO_TO_POS, .tpos 0 2⟩ }] []

/-- C2: one `execute_agent_plan_step` for a `GO_TO_POS` plan with an
unblocked, in-bounds path.  The greedy step itself succeeds (the agent moves
from (0,0) to (0,1), the vertical-then-horizontal composition choosing "S"),
and `_execute_move`'s success path returns Python `None` because the function
has no `return True`; the caller's `if not move_successful` treats that
`None` as failure, so the plan is reset to `Idle` even after a successful
step — the GoTo plan does NOT remain in place. -/
theorem goto_step_resets_plan_even_on_success :
    (getAgent simC2 0).map (·.currentPlan) = some ⟨.GO_TO_POS, .tpos 0 2⟩ ∧
    (executeMove simC2 0 "S" 0).1 = none ∧
    (getAgent (executeGoToPlanStep simC2 0) 0).map (fun a => (a.x, a.y)) = some (0, 1) ∧
    (getAgent (executeGoToPlanStep simC2 0) 0).map (·.currentPlan) = some idlePlan := by
  decide

theorem combat_damage_split_witness :
    getGroup simC6w 0 = some grpC6w ∧
    (∀ a ∈ grpC6w.memberAgents simC6w,
      (getAgent (applyDamage simC6w 0 .group (calculateDamage 12 2 1)) a.id).map (·.hp)
        = some (a.hp - calculateDamage 12 2 1 / ((grpC6w.memberAgents simC6w).length : ℚ))) :=
  ⟨rfl,
   (combat_damage_split simC6w 0 grpC6w 12 2 1 rfl ⟨by norm_num, by norm_num⟩ rfl
     (by decide)
     (by norm_num [grpC6w, simC6w, mkSim, mkAgent, mkGroup, Group.memberAgents, getAgent,
        Agent.isAlive, calculateDamage, pymax, AGENT_MAX_HP, List.find?, List.filterMap])).2.1⟩

theorem pymin_le_left (a b : ℚ) : pymin a b ≤ b := by
  unfold pymin; split
  · assumption
  · exact le_refl b

theorem pymin_le_self (a b : ℚ) : pymin a b ≤ a := by
  unfold pymin; split
  · exact le_refl a
  · exact le_of_not_le (by assumption)

theorem pymin_pos {a b : ℚ} (ha : 0 < a) (hb : 0 < b) : 0 < pymin a b := by
  unfold pymin; split <;> assumption

theorem pymin_eq_left {a b : ℚ} (h : a ≤ b) : pymin a b = a := by
  unfold pymin; rw [if_pos h]

theorem pymin_left_le_iff (a b : ℚ) : a ≤ pymin a b ↔ a ≤ b := by
  unfold pymin
  split
  · rename_i h
    exact ⟨fun _ => h, fun _ => le_refl a⟩
  · rename_i h
    exact ⟨fun hc => hc, fun hc => absurd hc h⟩

theorem rget_rset_self (m : RMap) (p : Pos) (v : RInfo) :
    rget (rset m p v) p = some v := dget_dset_self m p v

theorem rget_rset_ne (m : RMap) (p q : Pos) (v : RInfo) (hq : q ≠ p) :
    rget (rset m p v) q = rget m q := dget_dset_ne m p q v hq

theorem rget_rdel_self (m : RMap) (p : Pos) : rget (rdel m p) p = none :=
  dget_ddel_self m p

theorem rget_rdel_ne (m : RMap) (p q : Pos) (hq : q ≠ p) :
    rget (rdel m p) q = rget m q := dget_ddel_ne m p q hq

theorem kget_kset_self (m : KMap) (p : Pos) (v : KInfo) :
    kget (kset m p v) p = some v := dget_dset_self m p v

theorem kget_kset_ne (m : KMap) (p q : Pos) (v : KInfo) (hq : q ≠ p) :
    kget (kset m p v) q = kget m q := dget_dset_ne m p q v hq

theorem withKnowledge_resourceLevel (p : Pos) (e : KInfo) (b : Agent) :
    (withKnowledge p e b).resourceLevel = b.resourceLevel := rfl

theorem collectResource_resourceLevel (b : Agent) (amt : ℚ) :
    (b.collectResource amt).resourceLevel
      = pymin AGENT_MAX_RESOURCES (b.resourceLevel + amt) := rfl

theorem setNewPlan_id (b : Agent) (p : Plan) : (b.setNewPlan p).id = b.id := by
  unfold Agent.setNewPlan; split <;> rfl

theorem getAgent_setAgent_self' (s : Sim) (i : ℕ) (f : Agent → Agent)
    (hf : ∀ b, (f b).id = b.id) :
    getAgent (setAgent s i f) i = (getAgent s i).map f :=
  getAgent_setAgent_self hf

theorem getAgent_setAgent_collect (s : Sim) (i : ℕ) (amt : ℚ) :
    getAgent (setAgent s i (fun b => b.collectResource amt)) i
      = (getAgent s i).map (fun b => b.collectResource amt) :=
  getAgent_setAgent_self' s i _ (fun b => rfl)

theorem getAgent_setAgent_withKnowledge (s : Sim) (i : ℕ) (p : Pos) (e : KInfo) :
    getAgent (setAgent s i (withKnowledge p e)) i
      = (getAgent s i).map (withKnowledge p e) :=
  getAgent_setAgent_self' s i _ (fun b => rfl)

theorem getAgent_setAgent_idle (s : Sim) (i : ℕ) :
    getAgent (setAgent s i (fun b => b.setNewPlan idlePlan)) i
      = (getAgent s i).map (fun b => b.setNewPlan idlePlan) :=
  getAgent_setAgent_self' s i _ (fun b => setNewPlan_id b idlePlan)

theorem resources_setAgent (s : Sim) (i : ℕ) (f : Agent → Agent) :
    (setAgent s i f).resources = s.resources := rfl

theorem gridResources_setAgent (s : Sim) (i : ℕ) (f : Agent → Agent) :
    (setAgent s i f).gridResources = s.gridResources := rfl

theorem getAgent_withMaps (s : Sim) (r g : RMap) (i : ℕ) :
    getAgent { s with resources := r, gridResources := g } i = getAgent s i := rfl

theorem harvestResourceAt_eq (s : Sim) (aid : ℕ) (p : Pos) (ty : String)
    (q amt : ℚ) (hres : rget s.resources p = some ⟨ty, q⟩)
    (h0 : 0 < amt) (hle : amt ≤ q) :
    harvestResourceAt s aid p amt =
      (let s1 := setAgent s aid (fun b => b.collectResource amt)
       let leftInfo : RInfo := ⟨ty, q - amt⟩
       let s2 := { s1 with resources := rset s1.resources p leftInfo
                           gridResources := rset s1.gridResources p leftInfo }
       if q - amt ≤ 0 then
         (true, { s2 with resources := rdel s2.resources p
                          gridResources := rdel s2.gridResources p })
       else (true, s2)) := by
  unfold harvestResourceAt
  rw [hres]
  dsimp only
  rw [pymin_eq_left hle]
  rw [if_neg (not_le.2 h0)]

theorem harvest_step_eq
    (s : Sim) (aid : ℕ) (a : Agent) (ty : String) (q : ℚ)
    (hget : getAgent s aid = some a)
    (halive : a.isAlive = true)
    (hcomb : a.inCombat = false)
    (hplan : a.currentPlan = ⟨.GO_TO_RESOURCE, .tpos a.x a.y⟩)
    (hres : rget s.resources (a.x, a.y) = some ⟨ty, q⟩)
    (hq : 0 < q)
    (hfull : a.resourceLevel < AGENT_MAX_RESOURCES)
    (hrate : 0 < a.harvestRate) :
    executeGoToPlanStep s aid =
      (let amt := pymin a.harvestRate (pymin q (AGENT_MAX_RESOURCES - a.resourceLevel))
       let leftInfo : RInfo := ⟨ty, q - amt⟩
       let entry : KInfo := ⟨ty, q - amt, a.simulationTimeStep⟩
       let s1 := setAgent s aid (fun b => b.collectResource amt)
       let s2 := { s1 with resources := rset s1.resources (a.x, a.y) leftInfo
                           gridResources := rset s1.gridResources (a.x, a.y) leftInfo }
       let s3 := if q - amt ≤ 0 then
           { s2 with resources := rdel s2.resources (a.x, a.y)
                     gridResources := rdel s2.gridResources (a.x, a.y) } else s2
       let s4 := setAgent s3 aid (withKnowledge (a.x, a.y) entry)
       if ¬(0 < q - amt) ∨ AGENT_MAX_RESOURCES ≤ a.resourceLevel + amt then
         setAgent s4 aid (fun b => b.setNewPlan idlePlan)
       else s4) := by
  unfold executeGoToPlanStep
  rw [hget]
  dsimp only
  rw [hplan]
  dsimp only
  rw [if_neg (by simp [halive, hcomb])]
  rw [if_neg (by simp)]
  rw [if_pos (by simp)]
  rw [if_neg (show ¬(PlanType.GO_TO_RESOURCE = PlanType.GO_TO_AGENT) by simp)]
  dsimp only
  rw [if_pos rfl]
  rw [if_pos rfl]
  unfold harvestArrivalStep
  dsimp only
  rw [hres]
  dsimp only
  have hAq : pymin a.harvestRate (pymin q (AGENT_MAX_RESOURCES - a.resourceLevel)) ≤ q :=
    le_trans (pymin_le_left _ _) (pymin_le_self q _)
  have hAh : pymin a.harvestRate (pymin q (AGENT_MAX_RESOURCES - a.resourceLevel))
      ≤ AGENT_MAX_RESOURCES - a.resourceLevel :=
    le_trans (pymin_le_left _ _) (pymin_le_left _ _)
  have hApos : 0 < pymin a.harvestRate (pymin q (AGENT_MAX_RESOURCES - a.resourceLevel)) :=
    pymin_pos hrate (pymin_pos hq (by linarith))
  rw [if_pos (show 0 < q ∧ _ from ⟨hq, by simp [not_le.2 hfull]⟩)]
  rw [if_pos hApos]
  rw [harvestResourceAt_eq s aid (a.x, a.y) ty q _ hres hApos hAq]
  dsimp only
  by_cases hz : q - pymin a.harvestRate (pymin q (AGENT_MAX_RESOURCES - a.resourceLevel)) ≤ 0
  · have hz0 : q - pymin a.harvestRate (pymin q (AGENT_MAX_RESOURCES - a.resourceLevel)) = 0 := by
      have := hAq
      linarith
    rw [if_pos hz]
    dsimp only
    simp only [hz0]
    simp only [if_true]
    simp only [resources_setAgent]
    simp only [rget_rdel_self]
    simp only [getAgent_setAgent_withKnowledge, getAgent_withMaps,
      getAgent_setAgent_collect]
    rw [hget]
    rw [if_pos (Or.inl (show ¬false = true by decide))]
    rw [if_pos (Or.inl (show ¬((0:ℚ) < 0) by norm_num))]
    rfl
  · rw [if_neg hz]
    dsimp only
    simp only [if_true, resources_setAgent, gridResources_setAgent, rget_rset_self]
    simp only [getAgent_setAgent_withKnowledge, getAgent_withMaps,
      getAgent_setAgent_collect]
    rw [hget]
    simp only [Option.map_some']
    dsimp only
    simp only [withKnowledge_resourceLevel, collectResource_resourceLevel]
    have h0q : (0:ℚ) < q - pymin a.harvestRate (pymin q (AGENT_MAX_RESOURCES - a.resourceLevel)) :=
      not_le.1 hz
    by_cases hcap : AGENT_MAX_RESOURCES ≤ a.resourceLevel
        + pymin a.harvestRate (pymin q (AGENT_MAX_RESOURCES - a.resourceLevel))
    · have h1 : AGENT_MAX_RESOURCES ≤ pymin AGENT_MAX_RESOURCES (a.resourceLevel
          + pymin a.harvestRate (pymin q (AGENT_MAX_RESOURCES - a.resourceLevel))) := by
        rw [pymin_eq_left hcap]
      rw [if_pos (Or.inr (decide_eq_true h1))]
      rw [if_pos (Or.inr hcap)]
      rw [if_neg hz]
    · have h1 : ¬ AGENT_MAX_RESOURCES ≤ pymin AGENT_MAX_RESOURCES (a.resourceLevel
          + pymin a.harvestRate (pymin q (AGENT_MAX_RESOURCES - a.resourceLevel))) :=
        fun hMX => hcap (le_trans hMX (pymin_le_left _ _))
      rw [if_neg (show ¬ _ ∨ _ → False from fun hor => hor.elim
        (fun hA => hA (decide_eq_true h0q)) (fun hB => h1 (of_decide_eq_true hB)))]
      rw [if_neg (show ¬ _ ∨ _ → False from fun hor => hor.elim
        (fun hA => hA h0q) hcap)]
      rw [if_neg hz]

theorem setNewPlan_resourceLevel (b : Agent) (p : Plan) :
    (b.setNewPlan p).resourceLevel = b.resourceLevel := by
  unfold Agent.setNewPlan; split <;> rfl

theorem setNewPlan_knownResources (b : Agent) (p : Plan) :
    (b.setNewPlan p).knownResources = b.knownResources := by
  unfold Agent.setNewPlan; split <;> rfl

theorem setNewPlan_currentPlan_alive (b : Agent) (p : Plan) (h : b.isAlive = true) :
    (b.setNewPlan p).currentPlan = p := by
  unfold Agent.setNewPlan
  rw [if_pos h]

theorem withKnowledge_knownResources (p : Pos) (e : KInfo) (b : Agent) :
    (withKnowledge p e b).knownResources = kset b.knownResources p e := rfl

theorem pymin_eq_right {a b : ℚ} (h : b ≤ a) : pymin a b = b := by
  unfold pymin
  split
  · exact le_antisymm (by assumption) h
  · rfl

/-- Iterating `execute_agent_plan_step` for `n` consecutive ticks on one agent. -/
def iterGoTo (aid : ℕ) : ℕ → Sim → Sim
  | 0, s => s
  | n+1, s => iterGoTo aid n (executeGoToPlanStep s aid)

theorem harvest_roundtrip (n : ℕ) :
    ∀ (s : Sim) (aid : ℕ) (a : Agent) (ty : String) (q : ℚ),
      getAgent s aid = some a → a.isAlive = true → a.inCombat = false →
      a.currentPlan = ⟨.GO_TO_RESOURCE, .tpos a.x a.y⟩ →
      rget s.resources (a.x, a.y) = some ⟨ty, q⟩ → 0 < q →
      0 < a.harvestRate → q ≤ AGENT_MAX_RESOURCES - a.resourceLevel →
      (n : ℤ) = ⌈q / a.harvestRate⌉ →
      ∃ a2, getAgent (iterGoTo aid n s) aid = some a2 ∧
        a2.resourceLevel = a.resourceLevel + q ∧
        a2.currentPlan = idlePlan ∧
        kget a2.knownResources (a.x, a.y) = some ⟨ty, 0, a.simulationTimeStep⟩ ∧
        rget (iterGoTo aid n s).resources (a.x, a.y) = none ∧
        rget (iterGoTo aid n s).gridResources (a.x, a.y) = none := by
  induction n with
  | zero =>
    intro s aid a ty q hget halive hcomb hplan hres hq hrate hhead hn
    exfalso
    have hpos : 0 < ⌈q / a.harvestRate⌉ := Int.ceil_pos.2 (div_pos hq hrate)
    omega
  | succ m ih =>
    intro s aid a ty q hget halive hcomb hplan hres hq hrate hhead hn
    have hfull : a.resourceLevel < AGENT_MAX_RESOURCES := by linarith
    have hstep := harvest_step_eq s aid a ty q hget halive hcomb hplan hres hq hfull hrate
    have hqh : pymin q (AGENT_MAX_RESOURCES - a.resourceLevel) = q := pymin_eq_left hhead
    by_cases hqR : q ≤ a.harvestRate
    · -- final tick: the deposit is exhausted now
      have hm : m = 0 := by
        have hle : ⌈q / a.harvestRate⌉ ≤ 1 := by
          apply Int.ceil_le.2
          push_cast
          exact (div_le_one hrate).2 hqR
        omega
      subst hm
      have hamt : pymin a.harvestRate (pymin q (AGENT_MAX_RESOURCES - a.resourceLevel)) = q := by
        rw [hqh]
        exact pymin_eq_right hqR
      rw [hamt] at hstep
      dsimp only at hstep
      rw [sub_self q] at hstep
      rw [if_pos (le_refl (0:ℚ))] at hstep
      rw [if_pos (Or.inl (by norm_num))] at hstep
      refine ⟨(withKnowledge (a.x, a.y) ⟨ty, 0, a.simulationTimeStep⟩
        (a.collectResource q)).setNewPlan idlePlan, ?_, ?_, ?_, ?_, ?_, ?_⟩
      · simp only [iterGoTo]
        rw [hstep]
        simp only [getAgent_setAgent_idle, getAgent_setAgent_withKnowledge,
          getAgent_withMaps, getAgent_setAgent_collect, hget, Option.map_some']
      · simp only [setNewPlan_resourceLevel, withKnowledge_resourceLevel,
          collectResource_resourceLevel]
        rw [pymin_eq_right (by linarith)]
      · exact setNewPlan_currentPlan_alive _ _ halive
      · simp only [setNewPlan_knownResources, withKnowledge_knownResources]
        exact kget_kset_self _ _ _
      · simp only [iterGoTo]
        rw [hstep]
        simp only [resources_setAgent]
        exact rget_rdel_self _ _
      · simp only [iterGoTo]
        rw [hstep]
        simp only [gridResources_setAgent]
        exact rget_rdel_self _ _
    · -- a full-rate tick happens first, then the induction hypothesis applies
      have hRq : a.harvestRate < q := not_le.1 hqR
      have hamt : pymin a.harvestRate (pymin q (AGENT_MAX_RESOURCES - a.resourceLevel))
          = a.harvestRate := by
        rw [hqh]
        exact pymin_eq_left (le_of_lt hRq)
      rw [hamt] at hstep
      dsimp only at hstep
      have hq2 : 0 < q - a.harvestRate := sub_pos.2 hRq
      have hlevR : a.resourceLevel + a.harvestRate < AGENT_MAX_RESOURCES := by linarith
      rw [if_neg (not_le.2 hq2)] at hstep
      rw [if_neg (show ¬ _ ∨ _ → False from fun hor => hor.elim
        (fun hA => hA hq2) (fun hB => absurd hB (not_le.2 hlevR)))] at hstep
      have hget2 : getAgent (executeGoToPlanStep s aid) aid
          = some (withKnowledge (a.x, a.y) ⟨ty, q - a.harvestRate, a.simulationTimeStep⟩
            (a.collectResource a.harvestRate)) := by
        rw [hstep]
        simp only [getAgent_setAgent_withKnowledge, getAgent_withMaps,
          getAgent_setAgent_collect, hget, Option.map_some']
      have hres2 : rget (executeGoToPlanStep s aid).resources (a.x, a.y)
          = some ⟨ty, q - a.harvestRate⟩ := by
        rw [hstep]
        simp only [resources_setAgent]
        exact rget_rset_self _ _ _
      have hhead2 : q - a.harvestRate ≤ AGENT_MAX_RESOURCES
          - (withKnowledge (a.x, a.y) ⟨ty, q - a.harvestRate, a.simulationTimeStep⟩
            (a.collectResource a.harvestRate)).resourceLevel := by
        simp only [withKnowledge_resourceLevel, collectResource_resourceLevel]
        rw [pymin_eq_right (le_of_lt hlevR)]
        linarith
      have hn2 : (m : ℤ) = ⌈(q - a.harvestRate) / a.harvestRate⌉ := by
        have hdiv : (q - a.harvestRate) / a.harvestRate = q / a.harvestRate - 1 := by
          rw [sub_div, div_self (ne_of_gt hrate)]
        rw [hdiv, Int.ceil_sub_one]
        push_cast at hn
        omega
      obtain ⟨a2, hg2, hlev2, hplan2, hk2, hr2, hgr2⟩ :=
        ih (executeGoToPlanStep s aid) aid
          (withKnowledge (a.x, a.y) ⟨ty, q - a.harvestRate, a.simulationTimeStep⟩
            (a.collectResource a.harvestRate)) ty (q - a.harvestRate)
          hget2 halive hcomb hplan hres2 hq2 hrate hhead2 hn2
      refine ⟨a2, ?_, ?_, hplan2, hk2, ?_, ?_⟩
      · simpa only [iterGoTo] using hg2
      · rw [hlev2]
        simp only [withKnowledge_resourceLevel, collectResource_resourceLevel]
        rw [pymin_eq_right (le_of_lt hlevR)]
        ring
      · simpa only [iterGoTo] using hr2
      · simpa only [iterGoTo] using hgr2
/-- Agent for the C7 witness: empty inventory, harvest rate 5, standing on the
deposit it is targeting. -/
def agC7w : Agent :=
  { mkAgent 0 2 3 with resourceLevel := 0
                       harvestRate := 5
                       currentPlan := ⟨.GO_TO_RESOURCE, .tpos 2 3⟩ }

/-- The 10-unit food deposit sitting under the C7 witness agent. -/
def depC7 : RInfo := ⟨"food", 10⟩

/-- State for the C7 witness: the agent above on a 10-unit food deposit. -/
def simC7w : Sim :=
  { mkSim [agC7w] [] with resources := [((2, 3), depC7)]
                          gridResources := [((2, 3), depC7)] }

/-- **C7** (amended): an agent standing on a non-empty deposit while below
full capacity harvests exactly `min(harvest_rate, remaining, headroom)` that
tick, the two resource maps and its own knowledge entry are updated to the
post-harvest quantity, and the plan is reset to Idle exactly when the
deposit is exhausted or the agent is full — otherwise the GoToResource plan
persists; and, ADDITIONALLY ASSUMING the capacity headroom is at least the
deposit quantity Q, after `⌈Q / R⌉` such ticks the deposit is removed from
both the resource map and the spatial index, the agent has gained exactly
`Q = min(Q, headroom)`, its knowledge entry reads 0, and its plan is Idle.
(Without the headroom hypothesis the roundtrip fails: see the
counterexample.) -/
theorem harvest_per_tick_and_roundtrip
    (s : Sim) (aid : ℕ) (a : Agent) (ty : String) (q : ℚ) (n : ℕ)
    (hget : getAgent s aid = some a) (halive : a.isAlive = true)
    (hcomb : a.inCombat = false)
    (hplan : a.currentPlan = ⟨.GO_TO_RESOURCE, .tpos a.x a.y⟩)
    (hres : rget s.resources (a.x, a.y) = some ⟨ty, q⟩) (hq : 0 < q)
    (hrate : 0 < a.harvestRate)
    (hhead : q ≤ AGENT_MAX_RESOURCES - a.resourceLevel)
    (hn : (n : ℤ) = ⌈q / a.harvestRate⌉) :
    (executeGoToPlanStep s aid =
      (let amt := pymin a.harvestRate (pymin q (AGENT_MAX_RESOURCES - a.resourceLevel))
       let leftInfo : RInfo := ⟨ty, q - amt⟩
       let entry : KInfo := ⟨ty, q - amt, a.simulationTimeStep⟩
       let s1 := setAgent s aid (fun b => b.collectResource amt)
       let s2 := { s1 with resources := rset s1.resources (a.x, a.y) leftInfo
                           gridResources := rset s1.gridResources (a.x, a.y) leftInfo }
       let s3 := if q - amt ≤ 0 then
           { s2 with resources := rdel s2.resources (a.x, a.y)
                     gridResources := rdel s2.gridResources (a.x, a.y) } else s2
       let s4 := setAgent s3 aid (withKnowledge (a.x, a.y) entry)
       if ¬(0 < q - amt) ∨ AGENT_MAX_RESOURCES ≤ a.resourceLevel + amt then
         setAgent s4 aid (fun b => b.setNewPlan idlePlan)
       else s4)) ∧
    (∃ a2, getAgent (iterGoTo aid n s) aid = some a2 ∧
        a2.resourceLevel = a.resourceLevel + q ∧
        a2.currentPlan = idlePlan ∧
        kget a2.knownResources (a.x, a.y) = some ⟨ty, 0, a.simulationTimeStep⟩ ∧
        rget (iterGoTo aid n s).resources (a.x, a.y) = none ∧
        rget (iterGoTo aid n s).gridResources (a.x, a.y) = none) :=
  ⟨harvest_step_eq s aid a ty q hget halive hcomb hplan hres hq (by linarith) hrate,
   harvest_roundtrip n s aid a ty q hget halive hcomb hplan hres hq hrate hhead hn⟩

theorem harvest_per_tick_and_roundtrip_witness :
    ((0:ℚ) < 10 ∧ (10:ℚ) ≤ AGENT_MAX_RESOURCES - agC7w.resourceLevel
      ∧ (2:ℤ) = ⌈(10:ℚ) / agC7w.harvestRate⌉) ∧
    (∃ a2, getAgent (iterGoTo 0 2 simC7w) 0 = some a2 ∧
        a2.resourceLevel = agC7w.resourceLevel + 10 ∧
        a2.currentPlan = idlePlan ∧
        kget a2.knownResources (agC7w.x, agC7w.y)
          = some ⟨"food", 0, agC7w.simulationTimeStep⟩ ∧
        rget (iterGoTo 0 2 simC7w).resources (agC7w.x, agC7w.y) = none ∧
        rget (iterGoTo 0 2 simC7w).gridResources (agC7w.x, agC7w.y) = none) :=
  ⟨⟨by norm_num, by norm_num [agC7w, mkAgent, AGENT_MAX_RESOURCES],
    by norm_num [agC7w, mkAgent]⟩,
   (harvest_per_tick_and_roundtrip simC7w 0 agC7w "food" 10 2 rfl rfl rfl (by rfl) rfl
     (by norm_num) (by norm_num [agC7w, mkAgent])
     (by norm_num [agC7w, mkAgent, AGENT_MAX_RESOURCES])
     (by norm_num [agC7w, mkAgent])).2⟩
/-- Agent for the C7 counterexample: inventory 192 of 200, harvest rate 5. -/
def agC7x : Agent :=
  { mkAgent 0 2 3 with resourceLevel := 192
                       harvestRate := 5
                       currentPlan := ⟨.GO_TO_RESOURCE, .tpos 2 3⟩ }

/-- State for the C7 counterexample. -/
def simC7x : Sim :=
  { mkSim [agC7x] [] with resources := [((2, 3), depC7)]
                          gridResources := [((2, 3), depC7)] }

theorem planTypeEqSimp :
    (PlanType.GO_TO_RESOURCE = PlanType.WAITING_LLM) = False ∧
    (PlanType.GO_TO_RESOURCE = PlanType.WAITING_GROUP_RESPONSE) = False ∧
    (PlanType.GO_TO_RESOURCE = PlanType.RESPOND_TO_GROUP_REQUEST) = False ∧
    (PlanType.GO_TO_RESOURCE = PlanType.GO_TO_POS) = False ∧
    (PlanType.GO_TO_RESOURCE = PlanType.GO_TO_AGENT) = False ∧
    (PlanType.GO_TO_RESOURCE = PlanType.GO_TO_RESOURCE) = True :=
  ⟨eq_false (by decide), eq_false (by decide), eq_false (by decide),
   eq_false (by decide), eq_false (by decide), eq_true rfl⟩

theorem harvest_roundtrip_counterexample :
    (2:ℤ) = ⌈(10:ℚ) / agC7x.harvestRate⌉ ∧
    rget (iterGoTo 0 2 simC7x).resources (2, 3) = some ⟨"food", 2⟩ ∧
    (∃ a2, getAgent (iterGoTo 0 2 simC7x) 0 = some a2 ∧
        a2.resourceLevel = AGENT_MAX_RESOURCES ∧ a2.currentPlan = idlePlan) := by
  refine ⟨by norm_num [agC7x, mkAgent], ?_, ?_⟩
  · norm_num [iterGoTo, executeGoToPlanStep, harvestArrivalStep, harvestResourceAt,
      getAgent, setAgent, rget, rset, rdel, dget, dset, ddel, kset,
      withKnowledge, Agent.collectResource, Agent.setNewPlan, Agent.isAlive,
      Agent.inCombat, pyTruthy, pymin, pymax, idlePlan, simC7x, agC7x, depC7,
      planTypeEqSimp,
      mkSim, mkAgent, AGENT_MAX_RESOURCES, AGENT_MAX_HP, GRID_WIDTH, GRID_HEIGHT,
      List.find?]
  · norm_num [iterGoTo, executeGoToPlanStep, harvestArrivalStep, harvestResourceAt,
      getAgent, setAgent, rget, rset, rdel, dget, dset, ddel, kset,
      withKnowledge, Agent.collectResource, Agent.setNewPlan, Agent.isAlive,
      Agent.inCombat, pyTruthy, pymin, pymax, idlePlan, simC7x, agC7x, depC7,
      planTypeEqSimp,
      mkSim, mkAgent, AGENT_MAX_RESOURCES, AGENT_MAX_HP, GRID_WIDTH, GRID_HEIGHT,
      List.find?]

/-- **C8** (amended): if the two ids RESOLVE (agent-before-group, as
`get_combat_participants` does) to a pair of valid participants that are
mutually fighting each other, then `initiate_combat` returns success and
leaves the state unchanged. -/
theorem initiateCombat_idempotent_on_fighting_pair
    (s : Sim) (i j : ℕ) (t1 t2 : PType)
    (hne : i ≠ j)
    (h1 : resolveParticipant s i = some t1)
    (h2 : resolveParticipant s j = some t2)
    (hv1 : participantValid s i t1 = true)
    (hv2 : participantValid s j t2 = true)
    (hf12 : alreadyFightingCheck s i t1 j t2 = true)
    (hf21 : alreadyFightingCheck s j t2 i t1 = true) :
    initiateCombat s i j = (true, s) := by
  unfold initiateCombat
  rw [if_neg hne, h1, h2]
  dsimp only
  rw [if_neg (not_not_intro hv1), if_neg (not_not_intro hv2), if_pos hf12]

/-- State for the C8 witness: two lone agents fighting each other. -/
def simC8w : Sim :=
  mkSim [{ mkAgent 0 0 0 with inCombatWithAgent := some 1 },
         { mkAgent 1 1 0 with inCombatWithAgent := some 0 }] []

theorem initiateCombat_idempotent_witness :
    (alreadyFightingCheck simC8w 0 .agent 1 .agent = true ∧
     alreadyFightingCheck simC8w 1 .agent 0 .agent = true) ∧
    initiateCombat simC8w 0 1 = (true, simC8w) :=
  ⟨⟨by decide, by decide⟩,
   initiateCombat_idempotent_on_fighting_pair simC8w 0 1 .agent .agent
     (by decide) (by decide) (by decide) (by decide) (by decide)
     (by decide) (by decide)⟩

/-- State for the C8 counterexample: agent 1 and group 0 are mutually
fighting; a free agent 0 shares its id with group 0. -/
def simC8 : Sim :=
  mkSim [mkAgent 0 0 0,
         { mkAgent 1 1 0 with inCombatWithGroup := some 0 },
         { mkAgent 2 2 0 with groupId := some 0, inCombatWithAgent := some 1 }]
        [{ mkGroup 0 [2] with inCombatWithAgent := some 1 }]

/-- C8 counterexample: agent 1 and group 0 are mutually fighting, yet
`initiate_combat(1, 0)` resolves id 0 to AGENT 0 (agent lookup precedes the
group lookup), reports success, and rewires agent 1 against agent 0 --- its
link to group 0 is destroyed, so the call is not idempotent on the fighting
pair. -/
theorem initiateCombat_not_idempotent_counterexample :
    (alreadyFightingCheck simC8 1 .agent 0 .group = true ∧
     alreadyFightingCheck simC8 0 .group 1 .agent = true) ∧
    (initiateCombat simC8 1 0).1 = true ∧
    (getAgent simC8 1).map (fun a => a.inCombatWithGroup) = some (some 0) ∧
    (getAgent (initiateCombat simC8 1 0).2 1).map (fun a => a.inCombatWithGroup)
      = some none ∧
    (getAgent (initiateCombat simC8 1 0).2 1).map (fun a => a.inCombatWithAgent)
      = some (some 0) := by
  decide

/-- The cell test of `get_objects_in_radius(x, y, 5)` (grid_manager.py lines
68-79) applied to a resource position: the square bounding box
`range(max(0, x-5), min(width, x+6)) x range(max(0, y-5), min(height, y+6))`
(the `max`/`min` bounds are expanded into conjunctions) together with the
circle test `(x-i)^2 + (y-j)^2 <= 5^2`. -/
def visibleCell (s : Sim) (x y : ℤ) (p : Pos) : Bool :=
  decide (0 ≤ p.1) && decide (x - 5 ≤ p.1) &&
    decide (p.1 < s.gridW) && decide (p.1 < x + 5 + 1) &&
  decide (0 ≤ p.2) && decide (y - 5 ≤ p.2) &&
    decide (p.2 < s.gridH) && decide (p.2 < y + 5 + 1) &&
  decide ((x - p.1)^2 + (y - p.2)^2 ≤ 5^2)

/-- The body of `update_agent_perception_and_memory` (agent_manager.py lines
619-647) for one living agent: refresh `known_resources` with every resource
deposit in perception range (stamping `last_seen_tick = now`), then delete
every entry that is not currently visible and whose last-seen tick is more
than `FORGET_THRESHOLD` ticks old. -/
def perceiveAgent (s : Sim) (now : ℤ) (a : Agent) : Agent :=
  let seen := s.gridResources.filter (fun e => visibleCell s a.x a.y e.1)
  let km1 := seen.foldl (fun m e => kset m e.1 ⟨e.2.rtype, e.2.quantity, now⟩)
    a.knownResources
  let km2 := km1.filter (fun e =>
    seen.any (fun r => decide (r.1 = e.1)) ||
      decide (now - e.2.lastSeenTick ≤ FORGET_THRESHOLD))
  { a with knownResources := km2 }

/-- agent_manager.py `update_agent_perception_and_memory` over all agents:
dead agents are skipped, groups are not touched at all. -/
def memoryPhase (s : Sim) (now : ℤ) : Sim :=
  { s with agents := s.agents.map (fun a => if a.isAlive then perceiveAgent s now a else a) }

/-- **C9** (amended): after the perception/memory phase every LIVING agent's
knowledge map contains only entries that are currently visible or fresher
than `FORGET_THRESHOLD`; the groups (and hence their shared knowledge maps)
are not modified by the phase at all. -/
theorem memory_pruning_amended (s : Sim) (now : ℤ) :
    (memoryPhase s now).groups = s.groups ∧
    ∀ a2 ∈ (memoryPhase s now).agents, a2.isAlive = true →
      ∀ pe ∈ a2.knownResources,
        visibleCell s a2.x a2.y pe.1 = true ∨
          now - pe.2.lastSeenTick ≤ FORGET_THRESHOLD := by
  refine ⟨rfl, ?_⟩
  intro a2 ha2 halive pe hpe
  obtain ⟨a, ha, rfl⟩ := List.mem_map.1 ha2
  by_cases hAL : a.isAlive = true
  case neg =>
    rw [if_neg hAL] at halive
    exact absurd halive hAL
  case pos =>
    rw [if_pos hAL] at hpe ⊢
    unfold perceiveAgent at hpe ⊢
    dsimp only at hpe ⊢
    have hkeep := (List.mem_filter.1 hpe).2
    rcases Bool.or_eq_true_iff.1 hkeep with hseen | hfresh
    · left
      obtain ⟨r, hr, hrp⟩ := List.any_eq_true.1 hseen
      have hvis := (List.mem_filter.1 hr).2
      have hrp2 : r.1 = pe.1 := of_decide_eq_true hrp
      rw [← hrp2]
      exact hvis
    · right
      exact of_decide_eq_true hfresh
/-- Agent for the C9 witness, holding one remembered entry from tick 0. -/
def agC9w : Agent :=
  { mkAgent 0 0 0 with knownResources := [((0, 9), ⟨"food", 3, 0⟩)] }

/-- State for the C9 witness. -/
def simC9w : Sim := mkSim [agC9w] []

theorem memory_pruning_amended_witness :
    (perceiveAgent simC9w 50 agC9w).isAlive = true ∧
    (visibleCell simC9w (perceiveAgent simC9w 50 agC9w).x
        (perceiveAgent simC9w 50 agC9w).y ((0:ℤ), (9:ℤ)) = true ∨
      (50:ℤ) - (0:ℤ) ≤ FORGET_THRESHOLD) :=
  ⟨by decide,
   (memory_pruning_amended simC9w 50).2 (perceiveAgent simC9w 50 agC9w)
     (by decide) (by decide) ((0, 9), ⟨"food", 3, 0⟩) (by decide)⟩

/-- Group for the C9 counterexample: its shared map holds an entry last seen
at tick 0. -/
def grpC9 : Group :=
  { mkGroup 0 [0] with groupKnownResources := [((7, 7), ⟨"food", 5, 0⟩)] }

/-- State for the C9 counterexample. -/
def simC9x : Sim := mkSim [{ mkAgent 0 0 0 with groupId := some 0 }] [grpC9]

/-- C9 counterexample: at tick 200 nothing is visible anywhere (the spatial
index is empty) and the group's shared entry from tick 0 is 200 > 100 ticks
stale, yet it survives the perception/memory phase: group knowledge maps are
never pruned. -/
theorem memory_pruning_counterexample :
    simC9x.gridResources = [] ∧
    FORGET_THRESHOLD < (200:ℤ) - 0 ∧
    ((getGroup (memoryPhase simC9x 200) 0).map
        (fun g => kget g.groupKnownResources (7, 7)))
      = some (some ⟨"food", 5, 0⟩) := by
  decide

/-! ## The LLM result drain (simulation.py `_process_llm_results`, lines 214-362)

A queued result is `(agent_id, parsed_decision)` where `parsed_decision` is
either `None` (worker failure) or a dict with a plan name string and a raw
JSON target value.  The Python function keeps `was_group_decision`,
`parsed_plan_type` and `new_plan` as FUNCTION-level locals that survive from
one drained item to the next; reading one before any assignment raises
`NameError`.  The Python enum `PlanType` has no member `ATTACK_AGENT`, so the
comparisons `parsed_plan_type == PlanType.ATTACK_AGENT` (line 275) and
`parsed_plan_type != PlanType.ATTACK_AGENT` (line 355) raise
`AttributeError` whenever they are actually evaluated.  Exceptions raised
inside the inner `try` (lines 225-337) set `new_plan = Idle` and fall
through to line 355; exceptions raised at line 355 itself escape to the
outer handler, which stops the whole drain, keeping the state reached so far
and leaving the remaining queue items unprocessed.  `Except`'s `error`
component models that abort. -/

/-- A raw JSON value as it can appear in the `target` slot of a decision:
`None`, an int, a two-number list, or a string. -/
inductive PyVal where
  | vnone
  | vint (n : ℤ)
  | vpair (a b : ℤ)
  | vstr (s : String)
deriving DecidableEq, Repr

/-- A parsed oracle decision (`parsed_decision.get("plan", "IDLE")` and
`parsed_decision.get("target")`); a missing plan key is modelled by the
default string and a missing target by `vnone`. -/
structure Decision where
  plan : String
  target : PyVal
deriving DecidableEq, Repr

/-- Python `str.upper()` restricted to ASCII (plan names and direction
strings are ASCII).  `String.toUpper` itself does not reduce in the kernel,
so the map is written out. -/
def pyUpper (s : String) : String :=
  ⟨s.data.map (fun c =>
    if 97 ≤ c.toNat ∧ c.toNat ≤ 122 then Char.ofNat (c.toNat - 32) else c)⟩

/-- `PlanType[name.upper()]`; a `KeyError` is `none`. -/
def planTypeOfString (n : String) : Option PlanType :=
  match pyUpper n with
  | "IDLE" => some .IDLE
  | "GO_TO_POS" => some .GO_TO_POS
  | "GO_TO_RESOURCE" => some .GO_TO_RESOURCE
  | "GO_TO_AGENT" => some .GO_TO_AGENT
  | "FORM_GROUP_WITH" => some .FORM_GROUP_WITH
  | "ACCEPT_GROUP_FROM" => some .ACCEPT_GROUP_FROM
  | "ATTACK_TARGET" => some .ATTACK_TARGET
  | "EXPLORE" => some .EXPLORE
  | "WAITING_LLM" => some .WAITING_LLM
  | "RESPOND_TO_GROUP_REQUEST" => some .RESPOND_TO_GROUP_REQUEST
  | "WAITING_GROUP_RESPONSE" => some .WAITING_GROUP_RESPONSE
  | _ => none

/-- The three function-level locals of `_process_llm_results` that are read
across iterations; `none` = not yet assigned in this call (Python
`NameError` on read). -/
structure DrainLocals where
  wasGroupDecision : Option Bool
  parsedPlanType : Option PlanType
  newPlan : Option Plan
deriving DecidableEq, Repr

/-- Python `n in agent.pending_group_requests_from` for a raw int key. -/
def memberZ (l : List ℕ) (n : ℤ) : Bool :=
  l.any (fun m => decide ((m:ℤ) = n))

/-- Lines 271 / 285 / 299: `if requester_id in agent.pending_group_requests_from:
agent.pending_group_requests_from.remove(requester_id)` (first occurrence). -/
def removeIncoming (s : Sim) (aid : ℕ) (rq : Option ℤ) : Sim :=
  match rq with
  | some n =>
      setAgent s aid (fun b =>
        if memberZ b.pendingGroupRequestsFrom n then
          { b with pendingGroupRequestsFrom := b.pendingGroupRequestsFrom.erase n.toNat }
        else b)
  | none => s

/-- group_manager.py `create_group_with_agents` (lines 13-58), including the
`Group.__init__` join of the acceptor (group.py lines 6-33) and
`Group.add_member` for the requester (group.py lines 40-62).  Knowledge
merge order: the group map starts as the acceptor's map, then the
requester's entries are written over it (requester wins conflicts); both
members end up holding the merged map. -/
def createGroupWithAgents (s : Sim) (acceptorId : ℕ) (requesterZ : ℤ) :
    Option ℕ × Sim :=
  match getAgent s acceptorId, getAgentZ s requesterZ with
  | some bAg, some aAg =>
      if bAg.isAlive && decide (bAg.groupId = none) &&
         aAg.isAlive && decide (aAg.groupId = none) then
        let newId := s.nextGroupId
        let color := aAg.color
        let rid := aAg.id
        -- Group.__init__: the acceptor joins and seeds the group memory
        let s1 := setAgent s acceptorId (fun b =>
          { b.clearPendingGroupRequests with groupId := some newId, color := color })
        let merged := kupdate bAg.knownResources aAg.knownResources
        let s2 := setAgent s1 acceptorId (fun b => { b with knownResources := merged })
        let s3 := setAgent s2 rid (fun b => { b with knownResources := merged })
        -- group.add_member(requester_id)
        match getAgent s3 rid with
        | some a2 =>
            if a2.isAlive && decide (a2.groupId = none) then
              let gmap1 := kupdate merged a2.knownResources
              let s4 := setAgent s3 rid (fun b =>
                { b.clearPendingGroupRequests with
                    groupId := some newId
                    color := color
                    knownResources := gmap1 })
              let g : Group :=
                { id := newId, memberIds := [acceptorId, rid], groupStrength := 0,
                  groupDefense := 0, groupFightingAbility := 0, totalHp := 0,
                  inCombatWithGroup := none, inCombatWithAgent := none, color := color,
                  groupKnownResources := gmap1 }
              let g2 := g.updateStats s4
              (some newId, { s4 with groups := s4.groups ++ [g2], nextGroupId := newId + 1 })
            else (none, setAgent s3 acceptorId (fun b => { b with groupId := none }))
        | none => (none, setAgent s3 acceptorId (fun b => { b with groupId := none }))
      else (none, s)
  | _, _ => (none, s)

/-- The `ACCEPT_GROUP_FROM` branch of the group-decision handler
(simulation.py lines 245-273).  On the success path `agent.set_new_plan(new_plan)`
reads the local `new_plan` that no branch of this path ever assigned: if it is
unbound the `NameError` is caught by the inner handler (which sets
`new_plan = Idle`) and line 355 then skips the plan write; if a STALE value
is left over from an earlier iteration, that stale plan is installed. -/
def processAccept (s : Sim) (aid : ℕ) (a : Agent) (tgt : PyVal) (L : DrainLocals) :
    Sim × DrainLocals :=
  let rqInt : Option ℤ := match tgt with | .vint n => some n | _ => none
  let ra : Option Agent := match rqInt with | some n => getAgentZ s n | none => none
  let conditionsMet : Bool :=
    decide (a.groupId = none) &&
    (match ra, rqInt with
     | some r, some n =>
         r.isAlive && decide (r.groupId = none) &&
         memberZ a.pendingGroupRequestsFrom n &&
         decide (r.pendingGroupRequestTo = some a.id) &&
         decide (manhattanDistance (a.x, a.y) (r.x, r.y) ≤ 1)
     | _, _ => false)
  if conditionsMet then
    match ra with
    | some r =>
        match createGroupWithAgents s a.id (match rqInt with | some n => n | none => 0) with
        | (res, s1) =>
            if res.isSome then
              let s2 := setAgent s1 r.id (fun b => b.setNewPlan idlePlan)
              let s3 := removeIncoming s2 a.id rqInt
              match L.newPlan with
              | some np => (setAgent s3 a.id (fun b => b.setNewPlan np), L)
              | none => (s3, { L with newPlan := some idlePlan })
            else
              let s2 := setAgent s1 r.id (fun b => b.setNewPlan idlePlan)
              let s3 := removeIncoming s2 a.id rqInt
              (setAgent s3 a.id (fun b => b.setNewPlan idlePlan),
               { L with newPlan := some idlePlan })
    | none => (s, L)
  else
    let s1 := match ra with
      | some r => setAgent s r.id (fun b =>
          ({ b with pendingGroupRequestTo := none }).setNewPlan idlePlan)
      | none => s
    let s2 := removeIncoming s1 aid rqInt
    (setAgent s2 aid (fun b => b.setNewPlan idlePlan), { L with newPlan := some idlePlan })

/-- Lines 300-335: normal target validation.  Returns the final
`parsed_plan_type` and the `Target` of the `new_plan` dict (`tnone` models a
`None` target). -/
def validateTarget (ppt : PlanType) (tgt : PyVal) : PlanType × Target :=
  let pv : PlanType × Option Target :=
    if ppt = .GO_TO_RESOURCE ∨ ppt = .GO_TO_POS then
      match tgt with
      | .vpair a b => (ppt, some (.tpos a b))
      | _ => (.IDLE, none)
    else if ppt = .GO_TO_AGENT ∨ ppt = .FORM_GROUP_WITH ∨
            ppt = .ACCEPT_GROUP_FROM ∨ ppt = .ATTACK_TARGET then
      match tgt with
      | .vint n => (ppt, some (.tid n))
      | _ => (.IDLE, none)
    else if ppt = .EXPLORE then
      (ppt, match tgt with
            | .vstr d =>
                if ["N","S","E","W","NE","NW","SE","SW"].contains (pyUpper d) then
                  some (.tstr d)
                else none
            | _ => none)
    else (ppt, none)
  if pv.2 = none ∧ ¬(pv.1 = .IDLE ∨ pv.1 = .EXPLORE) then (.IDLE, .tnone)
  else (pv.1, pv.2.getD .tnone)

/-- Line 355: `if not was_group_decision or (parsed_plan_type !=
PlanType.ACCEPT_GROUP_FROM and parsed_plan_type != PlanType.ATTACK_AGENT):
agent.set_new_plan(new_plan)` with Python short-circuit evaluation.  Reads of
unbound locals, and any evaluation of the missing enum member
`PlanType.ATTACK_AGENT`, raise here OUTSIDE the inner try and so abort the
whole drain (`Except.error` carries the state kept by the outer handler). -/
def finalGuard (s : Sim) (aid : ℕ) (L : DrainLocals) : Except Sim Sim :=
  match L.wasGroupDecision with
  | none => .error s
  | some false =>
      match L.newPlan with
      | none => .error s
      | some np => .ok (setAgent s aid (fun b => b.setNewPlan np))
  | some true =>
      match L.parsedPlanType with
      | none => .error s
      | some ppt =>
          if ppt = .ACCEPT_GROUP_FROM then .ok s
          else .error s

/-- One drained queue item (the body of the `while` loop, lines 218-359). -/
def processLlmResult (s : Sim) (L : DrainLocals) (item : ℕ × Option Decision) :
    Except Sim (Sim × DrainLocals) :=
  match item with
  | (aid, dec) =>
      match getAgent s aid with
      | none => .ok (s, L)
      | some a =>
          if ¬a.isAlive then .ok (s, L)
          else match dec with
            | none =>
                -- LLM failure: `new_plan = Idle`, then line 355 with the
                -- (possibly unbound) stale locals
                let L1 := { L with newPlan := some idlePlan }
                (finalGuard s aid L1).map (fun s2 => (s2, L1))
            | some d =>
                let wgd : Bool := a.currentPlan.ptype = .RESPOND_TO_GROUP_REQUEST
                let ppt0 := (planTypeOfString d.plan).getD .IDLE
                let L1 := { L with wasGroupDecision := some wgd,
                                   parsedPlanType := some ppt0 }
                if wgd then
                  if ppt0 = .ACCEPT_GROUP_FROM then .ok (processAccept s aid a d.target L1)
                  else
                    -- line 275 `parsed_plan_type == PlanType.ATTACK_AGENT`
                    -- raises AttributeError (inner handler sets new_plan),
                    -- then line 355 raises it again and the drain dies
                    .error s
                else
                  let pv := validateTarget ppt0 d.target
                  let L2 := { L1 with parsedPlanType := some pv.1,
                                      newPlan := some (⟨pv.1, pv.2⟩ : Plan) }
                  (finalGuard s aid L2).map (fun s2 => (s2, L2))

/-- The drain loop over the remaining queue items; an escaped exception stops
it, returning the state reached and the items never dequeued. -/
def processLlmResultsGo (s : Sim) (L : DrainLocals) :
    List (ℕ × Option Decision) → Sim × List (ℕ × Option Decision)
  | [] => (s, [])
  | item :: rest =>
      match processLlmResult s L item with
      | .error s2 => (s2, rest)
      | .ok (s2, L2) => processLlmResultsGo s2 L2 rest

/-- simulation.py `_process_llm_results`: drain the whole queue starting with
all three locals unbound. -/
def processLlmResults (s : Sim) (queue : List (ℕ × Option Decision)) :
    Sim × List (ℕ × Option Decision) :=
  processLlmResultsGo s ⟨none, none, none⟩ queue
/-- Agent for the C1 scenario: alive, waiting for a normal LLM decision. -/
def agC1 : Agent :=
  { mkAgent 0 0 0 with currentPlan := ⟨.WAITING_LLM, .tnone⟩
                       isWaitingForLlm := true }

/-- State for the C1 scenario. -/
def simC1 : Sim := mkSim [agC1] []

/-- A decision whose plan parses but whose target is structurally invalid
for it. -/
def decBanana : Decision := ⟨"GO_TO_RESOURCE", .vstr "banana"⟩

/-- **C1**: the invalid-target sub-case does fall back to Idle as claimed,
but a None/failure result makes line 355 read the never-assigned local
`was_group_decision`, the `NameError` escapes to the outer handler, the
drain dies: the agent's plan is NOT set to Idle (the state is returned
unchanged) and the remaining queue items are never processed. -/
theorem llm_drain_failure_result_bug :
    ((getAgent (processLlmResults simC1 [(0, some decBanana)]).1 0).map
        (fun b => b.currentPlan) = some idlePlan ∧
     (processLlmResults simC1 [(0, some decBanana)]).2 = []) ∧
    processLlmResults simC1 [(0, none), (0, some decBanana)]
      = (simC1, [(0, some decBanana)]) := by
  decide

/-- Acceptor B for the C3 scenario: holds A's pending request and the group
response decision. -/
def agC3B : Agent :=
  { mkAgent 0 0 0 with
      currentPlan := ⟨.RESPOND_TO_GROUP_REQUEST, .tnone⟩
      isWaitingForLlm := true
      pendingGroupRequestsFrom := [1]
      groupRequestPendingDecision := true
      knownResources := [((5, 5), ⟨"food", 1, 0⟩), ((7, 7), ⟨"food", 2, 2⟩)] }

/-- Requester A for the C3 scenario: adjacent to B, outgoing request to B. -/
def agC3A : Agent :=
  { mkAgent 1 0 1 with
      currentPlan := ⟨.WAITING_GROUP_RESPONSE, .tid 0⟩
      pendingGroupRequestTo := some 0
      knownResources := [((5, 5), ⟨"food", 9, 3⟩), ((2, 2), ⟨"wood", 4, 1⟩)] }

/-- State for the C3 scenario. -/
def simC3 : Sim := mkSim [agC3B, agC3A] []

/-- The AcceptGroupFrom(A) decision drained for B. -/
def decAccept : Decision := ⟨"ACCEPT_GROUP_FROM", .vint 1⟩

/-- The union of the two knowledge maps, requester (later writer) winning
the conflict at (5,5). -/
def mergedC3 : KMap :=
  [((5, 5), ⟨"food", 9, 3⟩), ((7, 7), ⟨"food", 2, 2⟩), ((2, 2), ⟨"wood", 4, 1⟩)]

/-- The drain of the single accept decision. -/
def drainC3 : Sim × List (ℕ × Option Decision) :=
  processLlmResults simC3 [(0, some decAccept)]

set_option synthInstance.maxSize 4096 in
/-- **C3**: with all acceptance conditions still holding, the group {A, B}
is created with the correctly merged knowledge (requester wins conflicts)
and the requester's plan is reset to Idle --- but the acceptor's own plan is
NOT reset: `agent.set_new_plan(new_plan)` reads the unbound local
`new_plan`, the inner handler swallows the `NameError`, and line 355 then
skips the plan write, leaving the acceptor stuck in
RESPOND_TO_GROUP_REQUEST. -/
theorem accept_group_acceptor_plan_not_reset :
    (getGroup drainC3.1 0).map (fun g => (g.memberIds, g.groupKnownResources))
      = some ([0, 1], mergedC3) ∧
    (getAgent drainC3.1 1).map (fun b => b.currentPlan) = some idlePlan ∧
    (getAgent drainC3.1 1).map (fun b => (b.groupId, b.pendingGroupRequestTo))
      = some (some 0, none) ∧
    (getAgent drainC3.1 1).map (fun b => b.knownResources) = some mergedC3 ∧
    (getAgent drainC3.1 0).map (fun b => b.currentPlan)
      = some ⟨.RESPOND_TO_GROUP_REQUEST, .tnone⟩ ∧
    (getAgent drainC3.1 0).map (fun b => (b.groupId, b.pendingGroupRequestsFrom))
      = some (some 0, []) ∧
    (getAgent drainC3.1 0).map (fun b => b.knownResources) = some mergedC3 ∧
    drainC3.2 = [] := by
  decide

/-! ## Pending group requests (agent_manager.py `update_pending_requests`, lines 167-197) -/

/-- Clearing one agent's outgoing request field. -/
def clearOut (s : Sim) (i : ℕ) : Sim :=
  setAgent s i (fun b => { b with pendingGroupRequestTo := none })

/-- Removing (the first occurrence of) `r` from agent `j`'s incoming request
list (`list.remove`). -/
def eraseIn (s : Sim) (j r : ℕ) : Sim :=
  setAgent s j (fun b =>
    { b with pendingGroupRequestsFrom := b.pendingGroupRequestsFrom.erase r })

/-- The expiry test shared by the outgoing and the incoming check: the other
endpoint `kid` is missing, dead, grouped, or farther than 2 from `(x, y)`. -/
def expiredFor (s : Sim) (x y : ℤ) (kid : ℕ) : Bool :=
  match getAgent s kid with
  | none => true
  | some t =>
      !t.isAlive || decide (t.groupId ≠ none) ||
        decide (2 < manhattanDistance (x, y) (t.x, t.y))

/-- Lines 174-184: the check of the request initiated BY agent `i`. -/
def processOutgoing (s : Sim) (i : ℕ) : Sim :=
  match getAgent s i with
  | none => s
  | some a =>
      match a.pendingGroupRequestTo with
      | none => s
      | some tid =>
          if expiredFor s a.x a.y tid then
            let s1 := clearOut s i
            match getAgent s1 tid with
            | some t => if i ∈ t.pendingGroupRequestsFrom then eraseIn s1 tid i else s1
            | none => s1
          else s

/-- Lines 187-197, for one entry `rid` of the snapshot of agent `j`'s
incoming list. -/
def processIncomingOne (s : Sim) (j rid : ℕ) : Sim :=
  match getAgent s j with
  | none => s
  | some b =>
      if expiredFor s b.x b.y rid then
        let s1 := eraseIn s j rid
        match getAgent s1 rid with
        | some r =>
            if r.pendingGroupRequestTo = some j then clearOut s1 rid else s1
        | none => s1
      else s

/-- The whole loop body for one agent: dead agents are skipped; the incoming
loop runs over a snapshot (`list(...)`) of the incoming list taken after the
outgoing check. -/
def processAgentRequests (s : Sim) (i : ℕ) : Sim :=
  match getAgent s i with
  | none => s
  | some a =>
      if a.isAlive then
        let s1 := processOutgoing s i
        match getAgent s1 i with
        | none => s1
        | some a1 =>
            a1.pendingGroupRequestsFrom.foldl (fun acc rid => processIncomingOne acc i rid) s1
      else s

/-- agent_manager.py `update_pending_requests`: one pass over (a snapshot of)
all agents. -/
def updatePendingRequests (s : Sim) : Sim :=
  (s.agents.map (fun a => a.id)).foldl processAgentRequests s

/-- The request relation, outgoing side: agent `i`'s outgoing field names `j`. -/
def Rout (s : Sim) (i j : ℕ) : Prop :=
  ∃ a, getAgent s i = some a ∧ a.pendingGroupRequestTo = some j

/-- The request relation, incoming side: agent `j`'s incoming list holds `i`. -/
def Rin (s : Sim) (i j : ℕ) : Prop :=
  ∃ b, getAgent s j = some b ∧ i ∈ b.pendingGroupRequestsFrom

/-- The fields of an agent that `update_pending_requests` never writes. -/
def agentCore (a : Agent) : ℕ × ℤ × ℤ × ℚ × Option ℕ :=
  (a.id, a.x, a.y, a.hp, a.groupId)

/-- Two states agreeing on every agent's identity, position, hp and group. -/
def coreEq (s' s : Sim) : Prop :=
  ∀ k, (getAgent s' k).map agentCore = (getAgent s k).map agentCore

/-- The per-endpoint survival condition of the expiry checks: seen from
agent `i`, endpoint `j` exists, is alive, ungrouped and within distance 2. -/
def goodLink (s : Sim) (i j : ℕ) : Prop :=
  ∃ a t, getAgent s i = some a ∧ getAgent s j = some t ∧ t.isAlive = true ∧
    t.groupId = none ∧ manhattanDistance (a.x, a.y) (t.x, t.y) ≤ 2

/-- Endpoint `k` no longer accepts requests: whatever agent sits there (if
any) is grouped.  (Dead endpoints are excluded separately by the all-alive
hypothesis, and missing endpoints satisfy this vacuously.) -/
def badEnd (s : Sim) (k : ℕ) : Prop :=
  ∀ t, getAgent s k = some t → t.groupId ≠ none

/-- What one pass step may do to the request relation: only remove links,
never break the pairing of the two sides, and never touch the core fields. -/
def StepOK (s s' : Sim) : Prop :=
  coreEq s' s ∧
  (∀ k j, Rout s' k j → Rout s k j) ∧
  (∀ k j, Rin s' k j → Rin s k j) ∧
  (∀ k j, Rout s k j → ¬Rout s' k j → ¬Rin s' k j) ∧
  (∀ k j, Rin s k j → ¬Rin s' k j → ¬Rout s' k j)

/-- No agent's incoming list holds duplicates (the source only appends an id
after an explicit membership test). -/
def NodupIn (s : Sim) : Prop :=
  ∀ a ∈ s.agents, a.pendingGroupRequestsFrom.Nodup

/-- Every surviving outgoing request of `i` has a live, ungrouped, near
target. -/
def OutClean (s : Sim) (i : ℕ) : Prop :=
  ∀ j, Rout s i j → goodLink s i j

/-- Every surviving incoming entry of `i` names a live, ungrouped, near
requester. -/
def InClean (s : Sim) (i : ℕ) : Prop :=
  ∀ r, Rin s r i → goodLink s i r

theorem getAgent_clearOut_self (s : Sim) (i : ℕ) :
    getAgent (clearOut s i) i
      = (getAgent s i).map (fun b => { b with pendingGroupRequestTo := none }) :=
  getAgent_setAgent_self (fun b => rfl)

theorem getAgent_clearOut_ne (s : Sim) {k i : ℕ} (hne : k ≠ i) :
    getAgent (clearOut s i) k = getAgent s k :=
  getAgent_setAgent_ne (fun b => rfl) hne

theorem getAgent_eraseIn_self (s : Sim) (j r : ℕ) :
    getAgent (eraseIn s j r) j
      = (getAgent s j).map (fun b =>
          { b with pendingGroupRequestsFrom := b.pendingGroupRequestsFrom.erase r }) :=
  getAgent_setAgent_self (fun b => rfl)

theorem getAgent_eraseIn_ne (s : Sim) {k j : ℕ} (r : ℕ) (hne : k ≠ j) :
    getAgent (eraseIn s j r) k = getAgent s k :=
  getAgent_setAgent_ne (fun b => rfl) hne

theorem coreEq_refl (s : Sim) : coreEq s s := fun _ => rfl

theorem coreEq_trans {s1 s2 s3 : Sim} (h12 : coreEq s1 s2) (h23 : coreEq s2 s3) :
    coreEq s1 s3 := fun k => (h12 k).trans (h23 k)

theorem coreEq_setAgent (s : Sim) (i : ℕ) (f : Agent → Agent)
    (hfc : ∀ a, agentCore (f a) = agentCore a) :
    coreEq (setAgent s i f) s := by
  intro k
  have hfid : ∀ a, (f a).id = a.id := fun a => congrArg (fun p => p.1) (hfc a)
  rw [getAgent_setAgent s i k f hfid]
  cases h : getAgent s k with
  | none => rfl
  | some a =>
      show some (agentCore (if a.id = i then f a else a)) = some (agentCore a)
      split
      · rw [hfc a]
      · rfl

theorem coreEq_clearOut (s : Sim) (i : ℕ) : coreEq (clearOut s i) s :=
  coreEq_setAgent s i _ (fun a => rfl)

theorem coreEq_eraseIn (s : Sim) (j r : ℕ) : coreEq (eraseIn s j r) s :=
  coreEq_setAgent s j _ (fun a => rfl)

theorem Rout_clearOut {s : Sim} {i k j : ℕ} :
    Rout (clearOut s i) k j ↔ (Rout s k j ∧ k ≠ i) := by
  constructor
  · rintro ⟨a, ha, hout⟩
    by_cases hk : k = i
    · subst hk
      rw [getAgent_clearOut_self] at ha
      cases hg : getAgent s k with
      | none => rw [hg] at ha; exact absurd ha (by simp)
      | some b =>
          rw [hg] at ha
          have : a = { b with pendingGroupRequestTo := none } := by
            simpa using ha.symm
          rw [this] at hout
          exact absurd hout (by simp)
    · rw [getAgent_clearOut_ne s hk] at ha
      exact ⟨⟨a, ha, hout⟩, hk⟩
  · rintro ⟨⟨a, ha, hout⟩, hk⟩
    exact ⟨a, by rw [getAgent_clearOut_ne s hk]; exact ha, hout⟩

theorem Rin_clearOut {s : Sim} {i k j : ℕ} :
    Rin (clearOut s i) k j ↔ Rin s k j := by
  constructor
  · rintro ⟨b, hb, hmem⟩
    by_cases hj : j = i
    · subst hj
      rw [getAgent_clearOut_self] at hb
      cases hg : getAgent s j with
      | none => rw [hg] at hb; exact absurd hb (by simp)
      | some c =>
          rw [hg] at hb
          have : b = { c with pendingGroupRequestTo := none } := by
            simpa using hb.symm
          exact ⟨c, hg, by rw [this] at hmem; exact hmem⟩
    · rw [getAgent_clearOut_ne s hj] at hb
      exact ⟨b, hb, hmem⟩
  · rintro ⟨b, hb, hmem⟩
    by_cases hj : j = i
    · subst hj
      refine ⟨{ b with pendingGroupRequestTo := none }, ?_, hmem⟩
      rw [getAgent_clearOut_self, hb]
      rfl
    · exact ⟨b, by rw [getAgent_clearOut_ne s hj]; exact hb, hmem⟩

theorem Rout_eraseIn {s : Sim} {j r k m : ℕ} :
    Rout (eraseIn s j r) k m ↔ Rout s k m := by
  constructor
  · rintro ⟨a, ha, hout⟩
    by_cases hk : k = j
    · subst hk
      rw [getAgent_eraseIn_self] at ha
      cases hg : getAgent s k with
      | none => rw [hg] at ha; exact absurd ha (by simp)
      | some b =>
          rw [hg] at ha
          have : a = { b with pendingGroupRequestsFrom := b.pendingGroupRequestsFrom.erase r } := by
            simpa using ha.symm
          exact ⟨b, hg, by rw [this] at hout; exact hout⟩
    · rw [getAgent_eraseIn_ne s r hk] at ha
      exact ⟨a, ha, hout⟩
  · rintro ⟨a, ha, hout⟩
    by_cases hk : k = j
    · subst hk
      refine ⟨{ a with pendingGroupRequestsFrom := a.pendingGroupRequestsFrom.erase r }, ?_, hout⟩
      rw [getAgent_eraseIn_self, ha]
      rfl
    · exact ⟨a, by rw [getAgent_eraseIn_ne s r hk]; exact ha, hout⟩

theorem Rin_eraseIn_mono {s : Sim} {j r k m : ℕ} :
    Rin (eraseIn s j r) k m → Rin s k m := by
  rintro ⟨b, hb, hmem⟩
  by_cases hm : m = j
  · subst hm
    rw [getAgent_eraseIn_self] at hb
    cases hg : getAgent s m with
    | none => rw [hg] at hb; exact absurd hb (by simp)
    | some c =>
        rw [hg] at hb
        have : b = { c with pendingGroupRequestsFrom := c.pendingGroupRequestsFrom.erase r } := by
          simpa using hb.symm
        rw [this] at hmem
        exact ⟨c, hg, List.mem_of_mem_erase hmem⟩
  · rw [getAgent_eraseIn_ne s r hm] at hb
    exact ⟨b, hb, hmem⟩

theorem Rin_eraseIn_other {s : Sim} {j r k m : ℕ} (h : ¬(k = r ∧ m = j)) :
    Rin (eraseIn s j r) k m ↔ Rin s k m := by
  constructor
  · exact Rin_eraseIn_mono
  · rintro ⟨b, hb, hmem⟩
    by_cases hm : m = j
    · subst hm
      refine ⟨{ b with pendingGroupRequestsFrom := b.pendingGroupRequestsFrom.erase r }, ?_, ?_⟩
      · rw [getAgent_eraseIn_self, hb]
        rfl
      · have hkr : k ≠ r := fun hk => h ⟨hk, rfl⟩
        exact List.mem_erase_of_ne hkr |>.2 hmem
    · exact ⟨b, by rw [getAgent_eraseIn_ne s r hm]; exact hb, hmem⟩

theorem StepOK_refl (s : Sim) : StepOK s s :=
  ⟨coreEq_refl s, fun _ _ h => h, fun _ _ h => h,
   fun _ _ h h2 => absurd h h2, fun _ _ h h2 => absurd h h2⟩

theorem StepOK_trans {s1 s2 s3 : Sim} (h12 : StepOK s1 s2) (h23 : StepOK s2 s3) :
    StepOK s1 s3 := by
  obtain ⟨c12, ro12, ri12, a12, b12⟩ := h12
  obtain ⟨c23, ro23, ri23, a23, b23⟩ := h23
  refine ⟨coreEq_trans c23 c12, fun k j h => ro12 k j (ro23 k j h),
    fun k j h => ri12 k j (ri23 k j h), ?_, ?_⟩
  · intro k j h1 h3
    by_cases h2 : Rout s2 k j
    · exact a23 k j h2 h3
    · intro hin3
      exact a12 k j h1 h2 (ri23 k j hin3)
  · intro k j h1 h3
    by_cases h2 : Rin s2 k j
    · exact b23 k j h2 h3
    · intro hout3
      exact b12 k j h1 h2 (ro23 k j hout3)

theorem core_x {a b : Agent} (h : agentCore a = agentCore b) : a.x = b.x :=
  congrArg (fun p => p.2.1) h

theorem core_y {a b : Agent} (h : agentCore a = agentCore b) : a.y = b.y :=
  congrArg (fun p => p.2.2.1) h

theorem core_hp {a b : Agent} (h : agentCore a = agentCore b) : a.hp = b.hp :=
  congrArg (fun p => p.2.2.2.1) h

theorem core_gid {a b : Agent} (h : agentCore a = agentCore b) :
    a.groupId = b.groupId :=
  congrArg (fun p => p.2.2.2.2) h

theorem core_isAlive {a b : Agent} (h : agentCore a = agentCore b) :
    a.isAlive = b.isAlive := by
  unfold Agent.isAlive
  rw [core_hp h]

theorem coreEq_exists {s' s : Sim} (hc : coreEq s' s) {k : ℕ} {a : Agent}
    (ha : getAgent s k = some a) :
    ∃ a', getAgent s' k = some a' ∧ agentCore a' = agentCore a := by
  have := hc k
  rw [ha] at this
  cases h : getAgent s' k with
  | none => rw [h] at this; exact absurd this (by simp)
  | some a' =>
      rw [h] at this
      exact ⟨a', rfl, by simpa using this⟩

theorem coreEq_exists_rev {s' s : Sim} (hc : coreEq s' s) {k : ℕ} {a' : Agent}
    (ha : getAgent s' k = some a') :
    ∃ a, getAgent s k = some a ∧ agentCore a' = agentCore a := by
  have := hc k
  rw [ha] at this
  cases h : getAgent s k with
  | none => rw [h] at this; exact absurd this (by simp)
  | some a =>
      rw [h] at this
      exact ⟨a, rfl, by simpa using this⟩

theorem goodLink_coreEq {s' s : Sim} (hc : coreEq s' s) {i j : ℕ} :
    goodLink s i j ↔ goodLink s' i j := by
  constructor
  · rintro ⟨a, t, ha, ht, hal, hg, hd⟩
    obtain ⟨a', ha', hca⟩ := coreEq_exists hc ha
    obtain ⟨t', ht', hct⟩ := coreEq_exists hc ht
    exact ⟨a', t', ha', ht', by rw [core_isAlive hct]; exact hal,
      by rw [core_gid hct]; exact hg,
      by rw [core_x hca, core_y hca, core_x hct, core_y hct]; exact hd⟩
  · rintro ⟨a', t', ha', ht', hal, hg, hd⟩
    obtain ⟨a, ha, hca⟩ := coreEq_exists_rev hc ha'
    obtain ⟨t, ht, hct⟩ := coreEq_exists_rev hc ht'
    exact ⟨a, t, ha, ht, by rw [← core_isAlive hct]; exact hal,
      by rw [← core_gid hct]; exact hg,
      by rw [← core_x hca, ← core_y hca, ← core_x hct, ← core_y hct]; exact hd⟩

theorem badEnd_coreEq {s' s : Sim} (hc : coreEq s' s) {k : ℕ} :
    badEnd s k → badEnd s' k := by
  intro hb t' ht'
  obtain ⟨t, ht, hct⟩ := coreEq_exists_rev hc ht'
  rw [core_gid hct]
  exact hb t ht

/-- All agents of the state are alive, phrased through `getAgent`. -/
def AliveAll (s : Sim) : Prop :=
  ∀ k a, getAgent s k = some a → a.isAlive = true

theorem aliveAll_of_mem {s : Sim} (h : ∀ a ∈ s.agents, a.isAlive = true) :
    AliveAll s := fun _ a ha => h a (List.mem_of_find?_eq_some ha)

theorem aliveAll_coreEq {s' s : Sim} (hc : coreEq s' s) (h : AliveAll s) :
    AliveAll s' := by
  intro k a' ha'
  obtain ⟨a, ha, hca⟩ := coreEq_exists_rev hc ha'
  rw [core_isAlive hca]
  exact h k a ha

theorem expiredFor_eq_false_iff (s : Sim) (x y : ℤ) (kid : ℕ) :
    expiredFor s x y kid = false ↔
      ∃ t, getAgent s kid = some t ∧ t.isAlive = true ∧ t.groupId = none ∧
        manhattanDistance (x, y) (t.x, t.y) ≤ 2 := by
  unfold expiredFor
  cases hg : getAgent s kid with
  | none => simp
  | some t =>
      simp only [Bool.or_eq_false_iff, Bool.not_eq_false', decide_eq_false_iff_not,
        not_not, not_lt, Option.some.injEq]
      constructor
      · rintro ⟨⟨hal, hgid⟩, hd⟩
        exact ⟨t, rfl, hal, hgid, hd⟩
      · rintro ⟨t2, ht2, hal, hgid, hd⟩
        cases ht2
        exact ⟨⟨hal, hgid⟩, hd⟩

theorem NodupIn_setAgent {s : Sim} {i : ℕ} {f : Agent → Agent}
    (hf : ∀ a, a.pendingGroupRequestsFrom.Nodup → (f a).pendingGroupRequestsFrom.Nodup)
    (h : NodupIn s) : NodupIn (setAgent s i f) := by
  intro a ha
  unfold setAgent at ha
  obtain ⟨b, hb, rfl⟩ := List.mem_map.1 ha
  split
  · exact hf b (h b hb)
  · exact h b hb

theorem NodupIn_clearOut {s : Sim} (i : ℕ) (h : NodupIn s) :
    NodupIn (clearOut s i) :=
  NodupIn_setAgent (fun a ha => ha) h

theorem NodupIn_eraseIn {s : Sim} (j r : ℕ) (h : NodupIn s) :
    NodupIn (eraseIn s j r) :=
  NodupIn_setAgent (fun a ha => ha.erase r) h

theorem nodup_from_of_getAgent {s : Sim} (hnd : NodupIn s) {k : ℕ} {t : Agent}
    (h : getAgent s k = some t) : t.pendingGroupRequestsFrom.Nodup :=
  hnd t (List.mem_of_find?_eq_some h)

theorem StepOK_processOutgoing (s : Sim) (i : ℕ) (hnd : NodupIn s) :
    StepOK s (processOutgoing s i) := by
  unfold processOutgoing
  cases hga : getAgent s i with
  | none => exact StepOK_refl s
  | some a =>
  try dsimp only
  cases hout : a.pendingGroupRequestTo with
  | none => exact StepOK_refl s
  | some tid =>
  try dsimp only
  by_cases hexp : expiredFor s a.x a.y tid = true
  case neg =>
    rw [if_neg hexp]
    exact StepOK_refl s
  case pos =>
  rw [if_pos hexp]
  try dsimp only
  have hRoi : ∀ j, Rout s i j → j = tid := by
    rintro j ⟨a2, ha2, hout2⟩
    rw [hga] at ha2
    cases ha2
    rw [hout] at hout2
    exact (Option.some.inj hout2).symm
  have hce1 : coreEq (clearOut s i) s := coreEq_clearOut s i
  have hnd1 : NodupIn (clearOut s i) := NodupIn_clearOut i hnd
  cases hgt : getAgent (clearOut s i) tid with
  | none =>
      refine ⟨hce1, ?_, ?_, ?_, ?_⟩
      · intro k j h
        exact (Rout_clearOut.1 h).1
      · intro k j h
        exact Rin_clearOut.1 h
      · intro k j h hno hin
        have hk : k = i := by
          by_contra hk
          exact hno (Rout_clearOut.2 ⟨h, hk⟩)
        rw [hk] at h
        have hj := hRoi j h
        rw [hk, hj] at hin
        obtain ⟨b, hb, -⟩ := hin
        rw [hgt] at hb
        exact absurd hb (by simp)
      · intro k j h hno
        exact absurd (Rin_clearOut.2 h) hno
  | some t =>
  try dsimp only
  by_cases hmem : i ∈ t.pendingGroupRequestsFrom
  case neg =>
    rw [if_neg hmem]
    refine ⟨hce1, ?_, ?_, ?_, ?_⟩
    · intro k j h
      exact (Rout_clearOut.1 h).1
    · intro k j h
      exact Rin_clearOut.1 h
    · intro k j h hno hin
      have hk : k = i := by
        by_contra hk
        exact hno (Rout_clearOut.2 ⟨h, hk⟩)
      rw [hk] at h
      have hj := hRoi j h
      rw [hk, hj] at hin
      obtain ⟨b, hb, hbm⟩ := hin
      rw [hgt] at hb
      cases hb
      exact hmem hbm
    · intro k j h hno
      exact absurd (Rin_clearOut.2 h) hno
  case pos =>
  rw [if_pos hmem]
  have hce2 : coreEq (eraseIn (clearOut s i) tid i) s :=
    coreEq_trans (coreEq_eraseIn (clearOut s i) tid i) hce1
  refine ⟨hce2, ?_, ?_, ?_, ?_⟩
  · intro k j h
    exact (Rout_clearOut.1 (Rout_eraseIn.1 h)).1
  · intro k j h
    exact Rin_clearOut.1 (Rin_eraseIn_mono h)
  · intro k j h hno hin
    have hk : k = i := by
      by_contra hk
      exact hno (Rout_eraseIn.2 (Rout_clearOut.2 ⟨h, hk⟩))
    rw [hk] at h
    have hj := hRoi j h
    rw [hk, hj] at hin
    obtain ⟨b, hb, hbm⟩ := hin
    rw [getAgent_eraseIn_self, hgt] at hb
    have hbdef : b = { t with
        pendingGroupRequestsFrom := t.pendingGroupRequestsFrom.erase i } := by
      simpa using hb.symm
    rw [hbdef] at hbm
    exact (nodup_from_of_getAgent hnd1 hgt).not_mem_erase hbm
  · intro k j h hno
    by_cases hkj : k = i ∧ j = tid
    · obtain ⟨hk, hj⟩ := hkj
      rw [hk, hj]
      rintro hro
      have := (Rout_clearOut.1 (Rout_eraseIn.1 hro)).2
      exact this rfl
    · exact absurd ((Rin_eraseIn_other hkj).2 (Rin_clearOut.2 h)) hno

theorem NodupIn_processOutgoing (s : Sim) (i : ℕ) (hnd : NodupIn s) :
    NodupIn (processOutgoing s i) := by
  unfold processOutgoing
  cases getAgent s i with
  | none => exact hnd
  | some a =>
  try dsimp only
  cases a.pendingGroupRequestTo with
  | none => exact hnd
  | some tid =>
  try dsimp only
  split
  · try dsimp only
    cases getAgent (clearOut s i) tid with
    | none => exact NodupIn_clearOut i hnd
    | some t =>
        try dsimp only
        split
        · exact NodupIn_eraseIn tid i (NodupIn_clearOut i hnd)
        · exact NodupIn_clearOut i hnd
  · exact hnd

theorem out_eraseIn {s : Sim} {j rid k : ℕ} {r : Agent}
    (h : getAgent (eraseIn s j rid) k = some r) :
    ∃ r0, getAgent s k = some r0 ∧
      r0.pendingGroupRequestTo = r.pendingGroupRequestTo := by
  by_cases hr : k = j
  · rw [hr] at h ⊢
    rw [getAgent_eraseIn_self] at h
    cases hg : getAgent s j with
    | none => rw [hg] at h; exact absurd h (by simp)
    | some r0 =>
        rw [hg] at h
        have : r = { r0 with
            pendingGroupRequestsFrom := r0.pendingGroupRequestsFrom.erase rid } := by
          simpa using h.symm
        rw [this]
        exact ⟨r0, rfl, rfl⟩
  · rw [getAgent_eraseIn_ne s rid hr] at h
    exact ⟨r, h, rfl⟩

theorem StepOK_processIncomingOne (s : Sim) (j rid : ℕ) (hnd : NodupIn s) :
    StepOK s (processIncomingOne s j rid) := by
  unfold processIncomingOne
  cases hgb : getAgent s j with
  | none => exact StepOK_refl s
  | some b =>
  try dsimp only
  by_cases hexp : expiredFor s b.x b.y rid = true
  case neg =>
    rw [if_neg hexp]
    exact StepOK_refl s
  case pos =>
  rw [if_pos hexp]
  try dsimp only
  have hce1 : coreEq (eraseIn s j rid) s := coreEq_eraseIn s j rid
  have hnd1 : NodupIn (eraseIn s j rid) := NodupIn_eraseIn j rid hnd
  have houtpair : ∀ k m, Rout (eraseIn s j rid) k m ↔ Rout s k m :=
    fun k m => Rout_eraseIn
  cases hgr : getAgent (eraseIn s j rid) rid with
  | none =>
      refine ⟨hce1, ?_, ?_, ?_, ?_⟩
      · intro k m h
        exact Rout_eraseIn.1 h
      · intro k m h
        exact Rin_eraseIn_mono h
      · intro k m h hno
        exact absurd (Rout_eraseIn.2 h) hno
      · intro k m h hno hro
        have hkm : k = rid ∧ m = j := by
          by_contra hkm
          exact hno ((Rin_eraseIn_other hkm).2 h)
        obtain ⟨a2, ha2, -⟩ := hro
        rw [hkm.1, hgr] at ha2
        exact absurd ha2 (by simp)
  | some r =>
  try dsimp only
  by_cases hro : r.pendingGroupRequestTo = some j
  case neg =>
    rw [if_neg hro]
    refine ⟨hce1, ?_, ?_, ?_, ?_⟩
    · intro k m h
      exact Rout_eraseIn.1 h
    · intro k m h
      exact Rin_eraseIn_mono h
    · intro k m h hno
      exact absurd (Rout_eraseIn.2 h) hno
    · intro k m h hno hrout
      have hkm : k = rid ∧ m = j := by
        by_contra hkm
        exact hno ((Rin_eraseIn_other hkm).2 h)
      obtain ⟨a2, ha2, hout2⟩ := hrout
      rw [hkm.1] at ha2
      rw [hkm.2] at hout2
      rw [hgr] at ha2
      cases ha2
      exact hro hout2
  case pos =>
  rw [if_pos hro]
  have hce2 : coreEq (clearOut (eraseIn s j rid) rid) s :=
    coreEq_trans (coreEq_clearOut (eraseIn s j rid) rid) hce1
  refine ⟨hce2, ?_, ?_, ?_, ?_⟩
  · intro k m h
    exact Rout_eraseIn.1 (Rout_clearOut.1 h).1
  · intro k m h
    exact Rin_eraseIn_mono (Rin_clearOut.1 h)
  · intro k m h hno hin
    have hk : k = rid := by
      by_contra hk
      exact hno (Rout_clearOut.2 ⟨Rout_eraseIn.2 h, hk⟩)
    -- the cleared outgoing request pointed at j
    have hm : m = j := by
      rw [hk] at h
      obtain ⟨r0, hr0, hout0⟩ := h
      obtain ⟨r1, hr1, hout1⟩ := out_eraseIn hgr
      rw [hr0] at hr1
      cases hr1
      rw [hout0] at hout1
      rw [hro] at hout1
      exact Option.some.inj hout1
    rw [hk, hm] at hin
    have hin2 : Rin (eraseIn s j rid) rid j := Rin_clearOut.1 hin
    obtain ⟨b2, hb2, hbm⟩ := hin2
    rw [getAgent_eraseIn_self, hgb] at hb2
    have hb2def : b2 = { b with
        pendingGroupRequestsFrom := b.pendingGroupRequestsFrom.erase rid } := by
      simpa using hb2.symm
    rw [hb2def] at hbm
    exact (nodup_from_of_getAgent hnd hgb).not_mem_erase hbm
  · intro k m h hno
    have hkm : k = rid ∧ m = j := by
      by_contra hkm
      exact hno (Rin_clearOut.2 ((Rin_eraseIn_other hkm).2 h))
    rw [hkm.1, hkm.2]
    rintro hrout
    exact (Rout_clearOut.1 hrout).2 rfl

theorem NodupIn_processIncomingOne (s : Sim) (j rid : ℕ) (hnd : NodupIn s) :
    NodupIn (processIncomingOne s j rid) := by
  unfold processIncomingOne
  cases getAgent s j with
  | none => exact hnd
  | some b =>
  try dsimp only
  split
  · try dsimp only
    cases getAgent (eraseIn s j rid) rid with
    | none => exact NodupIn_eraseIn j rid hnd
    | some r =>
        try dsimp only
        split
        · exact NodupIn_clearOut rid (NodupIn_eraseIn j rid hnd)
        · exact NodupIn_eraseIn j rid hnd
  · exact hnd

theorem incomingFold_facts (i : ℕ) (l : List ℕ) : ∀ (acc : Sim), NodupIn acc →
    StepOK acc (l.foldl (fun a r => processIncomingOne a i r) acc) ∧
    NodupIn (l.foldl (fun a r => processIncomingOne a i r) acc) := by
  induction l with
  | nil => exact fun acc h => ⟨StepOK_refl acc, h⟩
  | cons rid rest ih =>
      intro acc h
      have h1 := StepOK_processIncomingOne acc i rid h
      have h2 := NodupIn_processIncomingOne acc i rid h
      have h3 := ih (processIncomingOne acc i rid) h2
      exact ⟨StepOK_trans h1 h3.1, h3.2⟩

theorem processAgentRequests_facts (s : Sim) (i : ℕ) (hnd : NodupIn s) :
    StepOK s (processAgentRequests s i) ∧ NodupIn (processAgentRequests s i) := by
  unfold processAgentRequests
  cases getAgent s i with
  | none => exact ⟨StepOK_refl s, hnd⟩
  | some a =>
  try dsimp only
  split
  · have h1 := StepOK_processOutgoing s i hnd
    have h2 := NodupIn_processOutgoing s i hnd
    cases getAgent (processOutgoing s i) i with
    | none => exact ⟨h1, h2⟩
    | some a1 =>
        try dsimp only
        have h3 := incomingFold_facts i a1.pendingGroupRequestsFrom (processOutgoing s i) h2
        exact ⟨StepOK_trans h1 h3.1, h3.2⟩
  · exact ⟨StepOK_refl s, hnd⟩

theorem updateFold_facts (l : List ℕ) : ∀ (acc : Sim), NodupIn acc →
    StepOK acc (l.foldl processAgentRequests acc) ∧
    NodupIn (l.foldl processAgentRequests acc) := by
  induction l with
  | nil => exact fun acc h => ⟨StepOK_refl acc, h⟩
  | cons i rest ih =>
      intro acc h
      have h1 := processAgentRequests_facts acc i h
      have h3 := ih (processAgentRequests acc i) h1.2
      exact ⟨StepOK_trans h1.1 h3.1, h3.2⟩

theorem OutClean_step {s s' : Sim} {i : ℕ} (h : StepOK s s') (hc : OutClean s i) :
    OutClean s' i := by
  intro j hro
  exact (goodLink_coreEq h.1).1 (hc j (h.2.1 i j hro))

theorem InClean_step {s s' : Sim} {i : ℕ} (h : StepOK s s') (hc : InClean s i) :
    InClean s' i := by
  intro r hri
  exact (goodLink_coreEq h.1).1 (hc r (h.2.2.1 r i hri))

theorem OutClean_processOutgoing (s : Sim) (i : ℕ) :
    OutClean (processOutgoing s i) i := by
  unfold processOutgoing
  cases hga : getAgent s i with
  | none =>
      rintro j ⟨a2, ha2, -⟩
      rw [hga] at ha2
      exact absurd ha2 (by simp)
  | some a =>
  try dsimp only
  cases hout : a.pendingGroupRequestTo with
  | none =>
      rintro j ⟨a2, ha2, hout2⟩
      rw [hga] at ha2
      cases ha2
      rw [hout] at hout2
      exact absurd hout2 (by simp)
  | some tid =>
  try dsimp only
  by_cases hexp : expiredFor s a.x a.y tid = true
  case pos =>
    rw [if_pos hexp]
    try dsimp only
    -- the outgoing field was cleared: no surviving outgoing request
    have hnoro : ∀ (s2 : Sim), (∀ j, Rout s2 i j → Rout (clearOut s i) i j) →
        OutClean s2 i := by
      intro s2 hmono j hro
      have := hmono j hro
      exact absurd (Rout_clearOut.1 this).2 (by simp)
    cases hgt : getAgent (clearOut s i) tid with
    | none => exact hnoro _ (fun j h => h)
    | some t =>
        try dsimp only
        split
        · exact hnoro _ (fun j h => Rout_eraseIn.1 h)
        · exact hnoro _ (fun j h => h)
  case neg =>
    rw [if_neg hexp]
    rintro j ⟨a2, ha2, hout2⟩
    rw [hga] at ha2
    cases ha2
    rw [hout] at hout2
    have hj : j = tid := (Option.some.inj hout2).symm
    obtain ⟨t, ht, hal, hgid, hd⟩ :=
      (expiredFor_eq_false_iff s a.x a.y tid).1 (Bool.not_eq_true _ ▸ hexp)
    rw [hj]
    exact ⟨a, t, hga, ht, hal, hgid, hd⟩

/-- The number of occurrences of `r` in agent `i`'s incoming list. -/
def inCount (s : Sim) (i r : ℕ) : ℕ :=
  match getAgent s i with
  | some a => a.pendingGroupRequestsFrom.count r
  | none => 0

theorem inCount_clearOut (s : Sim) (k i r : ℕ) :
    inCount (clearOut s k) i r = inCount s i r := by
  unfold inCount
  by_cases hik : i = k
  · rw [hik, getAgent_clearOut_self]
    cases getAgent s k with
    | none => rfl
    | some a => rfl
  · rw [getAgent_clearOut_ne s hik]

theorem inCount_eraseIn (s : Sim) (i q r : ℕ) :
    inCount (eraseIn s i q) i r
      = match getAgent s i with
        | some a => (a.pendingGroupRequestsFrom.erase q).count r
        | none => 0 := by
  unfold inCount
  rw [getAgent_eraseIn_self]
  cases getAgent s i with
  | none => rfl
  | some a => rfl

theorem inCount_eraseIn_ne (s : Sim) {i j : ℕ} (q r : ℕ) (h : i ≠ j) :
    inCount (eraseIn s j q) i r = inCount s i r := by
  unfold inCount
  rw [getAgent_eraseIn_ne s q h]

theorem incomingFold_count (i : ℕ) (l : List ℕ) : ∀ (acc : Sim), NodupIn acc →
    (∀ r, ¬goodLink acc i r → inCount acc i r ≤ l.count r) →
    ∀ r, ¬goodLink (l.foldl (fun a q => processIncomingOne a i q) acc) i r →
      inCount (l.foldl (fun a q => processIncomingOne a i q) acc) i r = 0 := by
  induction l with
  | nil =>
      intro acc _ hbase r hng
      exact Nat.le_zero.1 (hbase r hng)
  | cons rid rest ih =>
      intro acc hnd hbase
      have hstep := StepOK_processIncomingOne acc i rid hnd
      have hnd2 := NodupIn_processIncomingOne acc i rid hnd
      refine ih (processIncomingOne acc i rid) hnd2 ?_
      intro r hng2
      have hng : ¬goodLink acc i r :=
        fun hg => hng2 ((goodLink_coreEq hstep.1).1 hg)
      -- compute the effect of one incoming step on the count
      unfold processIncomingOne
      cases hgb : getAgent acc i with
      | none =>
          -- agent i is absent: the count is 0 on both sides
          have h0 : inCount acc i r = 0 := by unfold inCount; rw [hgb]
          rw [h0]
          exact Nat.zero_le _
      | some b =>
      try dsimp only
      by_cases hexp : expiredFor acc b.x b.y rid = true
      case neg =>
        rw [if_neg hexp]
        -- not expired: rid is a good link, so r ≠ rid and the suffix count is unchanged
        have hgood : goodLink acc i rid := by
          obtain ⟨t, ht, hal, hgid, hd⟩ :=
            (expiredFor_eq_false_iff acc b.x b.y rid).1 (Bool.not_eq_true _ ▸ hexp)
          exact ⟨b, t, hgb, ht, hal, hgid, hd⟩
        have hrne : r ≠ rid := fun h => hng (h ▸ hgood)
        have := hbase r hng
        rw [List.count_cons_of_ne hrne] at this
        exact this
      case pos =>
        rw [if_pos hexp]
        try dsimp only
        have hcount1 : inCount (eraseIn acc i rid) i r
            = (b.pendingGroupRequestsFrom.erase rid).count r := by
          rw [inCount_eraseIn, hgb]
        have hkey : inCount (eraseIn acc i rid) i r ≤ rest.count r := by
          rw [hcount1]
          have hb := hbase r hng
          have hbc : inCount acc i r = b.pendingGroupRequestsFrom.count r := by
            unfold inCount; rw [hgb]
          by_cases hrr : r = rid
          · rw [hrr] at hb hbc ⊢
            rw [List.count_erase_self]
            rw [List.count_cons_self] at hb
            omega
          · rw [List.count_erase_of_ne hrr]
            rw [List.count_cons_of_ne hrr] at hb
            rw [hbc] at hb
            exact hb
        cases hgr : getAgent (eraseIn acc i rid) rid with
        | none => exact hkey
        | some rr =>
            try dsimp only
            split
            · rw [inCount_clearOut]
              exact hkey
            · exact hkey

theorem Clean_processAgentRequests (s : Sim) (i : ℕ) (hnd : NodupIn s)
    (hAll : AliveAll s) :
    OutClean (processAgentRequests s i) i ∧ InClean (processAgentRequests s i) i := by
  unfold processAgentRequests
  cases hga : getAgent s i with
  | none =>
      constructor
      · rintro j ⟨a2, ha2, -⟩
        rw [hga] at ha2
        exact absurd ha2 (by simp)
      · rintro r ⟨b2, hb2, -⟩
        rw [hga] at hb2
        exact absurd hb2 (by simp)
  | some a =>
  try dsimp only
  rw [if_pos (hAll i a hga)]
  have hout1 : OutClean (processOutgoing s i) i := OutClean_processOutgoing s i
  have hstep1 := StepOK_processOutgoing s i hnd
  have hnd1 := NodupIn_processOutgoing s i hnd
  cases hga1 : getAgent (processOutgoing s i) i with
  | none =>
      constructor
      · exact hout1
      · rintro r ⟨b2, hb2, -⟩
        rw [hga1] at hb2
        exact absurd hb2 (by simp)
  | some a1 =>
  try dsimp only
  have hfold := incomingFold_facts i a1.pendingGroupRequestsFrom (processOutgoing s i) hnd1
  constructor
  · exact OutClean_step hfold.1 hout1
  · -- incoming side: the count invariant empties every bad entry
    have hbase : ∀ r, ¬goodLink (processOutgoing s i) i r →
        inCount (processOutgoing s i) i r ≤ a1.pendingGroupRequestsFrom.count r := by
      intro r _
      unfold inCount
      rw [hga1]
    have hcount := incomingFold_count i a1.pendingGroupRequestsFrom
      (processOutgoing s i) hnd1 hbase
    intro r hri
    by_contra hng
    have h0 := hcount r hng
    obtain ⟨b2, hb2, hbm⟩ := hri
    have : inCount (a1.pendingGroupRequestsFrom.foldl
        (fun a q => processIncomingOne a i q) (processOutgoing s i)) i r ≠ 0 := by
      unfold inCount
      rw [hb2]
      show b2.pendingGroupRequestsFrom.count r ≠ 0
      have := List.count_pos_iff.2 hbm
      omega
    exact this h0

theorem updateLoop_clean (s : Sim) (hAll : AliveAll s) (l : List ℕ) :
    ∀ (acc : Sim) (D : ℕ → Prop), NodupIn acc → StepOK s acc →
    (∀ i, D i → OutClean acc i ∧ InClean acc i) →
    ∀ i, (D i ∨ i ∈ l) →
      OutClean (l.foldl processAgentRequests acc) i ∧
      InClean (l.foldl processAgentRequests acc) i := by
  induction l with
  | nil =>
      intro acc D hnd hstep hD i hi
      rcases hi with hi | hi
      · exact hD i hi
      · exact absurd hi (by simp)
  | cons k rest ih =>
      intro acc D hnd hstep hD i hi
      have hAllacc : AliveAll acc := aliveAll_coreEq hstep.1 hAll
      have hfacts := processAgentRequests_facts acc k hnd
      have hclean := Clean_processAgentRequests acc k hnd hAllacc
      have hnext := ih (processAgentRequests acc k) (fun m => D m ∨ m = k)
        hfacts.2 (StepOK_trans hstep hfacts.1) ?_ i ?_
      · exact hnext
      · intro m hm
        rcases hm with hm | hm
        · have := hD m hm
          exact ⟨OutClean_step hfacts.1 this.1, InClean_step hfacts.1 this.2⟩
        · rw [hm]
          exact hclean
      · rcases hi with hi | hi
        · exact Or.inl (Or.inl hi)
        · rcases List.mem_cons.1 hi with hik | hir
          · exact Or.inl (Or.inr hik)
          · exact Or.inr hir

/-- **C4**: given that every agent is alive (deaths were removed at the end
of the previous tick), that incoming lists are duplicate-free, and that any
one-sided request left by the previous tick's operations points at a grouped
(or removed) endpoint, the per-tick repair pass `update_pending_requests`
restores full two-sidedness: afterwards A's outgoing field names B IFF B's
incoming list holds A, and every surviving request joins two live, ungrouped
agents within distance 2 of each other. -/
theorem pending_requests_two_sided
    (s : Sim)
    (hAlive : ∀ a ∈ s.agents, a.isAlive = true)
    (hnd : NodupIn s)
    (hH1 : ∀ i j, Rout s i j → Rin s i j ∨ badEnd s j)
    (hH2 : ∀ i j, Rin s i j → Rout s i j ∨ badEnd s i) :
    (∀ i j, Rout (updatePendingRequests s) i j ↔ Rin (updatePendingRequests s) i j) ∧
    (∀ i j, Rout (updatePendingRequests s) i j →
      goodLink (updatePendingRequests s) i j ∧ goodLink (updatePendingRequests s) j i) := by
  have hAll : AliveAll s := aliveAll_of_mem hAlive
  have hfacts := updateFold_facts (s.agents.map (fun a => a.id)) s hnd
  have hstep : StepOK s (updatePendingRequests s) := hfacts.1
  have hclean0 := updateLoop_clean s hAll (s.agents.map (fun a => a.id)) s
    (fun _ => False) hnd (StepOK_refl s) (fun i hi => absurd hi (by simp))
  have hclean : ∀ i, i ∈ s.agents.map (fun a => a.id) →
      OutClean (updatePendingRequests s) i ∧ InClean (updatePendingRequests s) i :=
    fun i hi => hclean0 i (Or.inr hi)
  have hmem : ∀ {i : ℕ} {a' : Agent}, getAgent (updatePendingRequests s) i = some a' →
      i ∈ s.agents.map (fun a => a.id) := by
    intro i a' ha'
    obtain ⟨a, ha, -⟩ := coreEq_exists_rev hstep.1 ha'
    exact List.mem_map.2 ⟨a, List.mem_of_find?_eq_some ha, getAgent_some_id ha⟩
  have hINV1 : ∀ i j, Rout (updatePendingRequests s) i j →
      Rin (updatePendingRequests s) i j ∨ badEnd (updatePendingRequests s) j := by
    intro i j h
    rcases hH1 i j (hstep.2.1 i j h) with hin | hbad
    · by_cases hin2 : Rin (updatePendingRequests s) i j
      · exact Or.inl hin2
      · exact absurd h (hstep.2.2.2.2 i j hin hin2)
    · exact Or.inr (badEnd_coreEq hstep.1 hbad)
  have hINV2 : ∀ i j, Rin (updatePendingRequests s) i j →
      Rout (updatePendingRequests s) i j ∨ badEnd (updatePendingRequests s) i := by
    intro i j h
    rcases hH2 i j (hstep.2.2.1 i j h) with hout | hbad
    · by_cases hout2 : Rout (updatePendingRequests s) i j
      · exact Or.inl hout2
      · exact absurd h (hstep.2.2.2.1 i j hout hout2)
    · exact Or.inr (badEnd_coreEq hstep.1 hbad)
  have hdir1 : ∀ i j, Rout (updatePendingRequests s) i j →
      Rin (updatePendingRequests s) i j ∧
      goodLink (updatePendingRequests s) i j := by
    intro i j h
    have hcopy := h
    obtain ⟨a', ha', -⟩ := hcopy
    have hgood : goodLink (updatePendingRequests s) i j :=
      (hclean i (hmem ha')).1 j h
    rcases hINV1 i j h with hin | hbad
    · exact ⟨hin, hgood⟩
    · obtain ⟨-, t, -, ht, -, hgid, -⟩ := hgood
      exact absurd hgid (hbad t ht)
  refine ⟨?_, ?_⟩
  · intro i j
    constructor
    · intro h
      exact (hdir1 i j h).1
    · intro h
      have hcopy := h
      obtain ⟨b', hb', -⟩ := hcopy
      have hgood : goodLink (updatePendingRequests s) j i :=
        (hclean j (hmem hb')).2 i h
      rcases hINV2 i j h with hout | hbad
      · exact hout
      · obtain ⟨-, t, -, ht, -, hgid, -⟩ := hgood
        exact absurd hgid (hbad t ht)
  · intro i j h
    have h1 := hdir1 i j h
    have hcopy := h1.1
    obtain ⟨b', hb', -⟩ := hcopy
    exact ⟨h1.2, (hclean j (hmem hb')).2 i h1.1⟩

/-- Requester for the C4 witness, outgoing request to agent 1. -/
def agC4a : Agent := { mkAgent 0 0 0 with pendingGroupRequestTo := some 1 }

/-- Addressee for the C4 witness, incoming request from agent 0. -/
def agC4b : Agent := { mkAgent 1 0 1 with pendingGroupRequestsFrom := [0] }

/-- State for the C4 witness: one two-sided adjacent pending request. -/
def simC4w : Sim := mkSim [agC4a, agC4b] []

theorem getAgent_simC4w (i : ℕ) :
    getAgent simC4w i =
      if i = 0 then some agC4a else if i = 1 then some agC4b else none := by
  show List.find? (fun a => a.id = i) [agC4a, agC4b] = _
  by_cases h0 : i = 0
  · subst h0
    rfl
  · by_cases h1 : i = 1
    · subst h1
      rfl
    · rw [if_neg h0, if_neg h1]
      have e0 : (decide (agC4a.id = i)) = false :=
        decide_eq_false (fun h => h0 h.symm)
      have e1 : (decide (agC4b.id = i)) = false :=
        decide_eq_false (fun h => h1 h.symm)
      simp [List.find?, e0, e1]

theorem simC4w_H1 : ∀ i j, Rout simC4w i j → Rin simC4w i j ∨ badEnd simC4w j := by
  rintro i j ⟨a, ha, hout⟩
  rw [getAgent_simC4w] at ha
  by_cases h0 : i = 0
  · rw [if_pos h0] at ha
    have ha2 : a = agC4a := (Option.some.inj ha).symm
    rw [ha2] at hout
    have hj : j = 1 := (Option.some.inj hout).symm
    left
    refine ⟨agC4b, ?_, ?_⟩
    · rw [getAgent_simC4w, hj]
      rfl
    · rw [h0]
      show 0 ∈ agC4b.pendingGroupRequestsFrom
      decide
  · rw [if_neg h0] at ha
    by_cases h1 : i = 1
    · rw [if_pos h1] at ha
      have ha2 : a = agC4b := (Option.some.inj ha).symm
      rw [ha2] at hout
      simp [agC4b, mkAgent] at hout
    · rw [if_neg h1] at ha
      exact absurd ha (by simp)

theorem simC4w_H2 : ∀ i j, Rin simC4w i j → Rout simC4w i j ∨ badEnd simC4w i := by
  rintro i j ⟨b, hb, hmem⟩
  rw [getAgent_simC4w] at hb
  by_cases h0 : j = 0
  · rw [if_pos h0] at hb
    have hb2 : b = agC4a := (Option.some.inj hb).symm
    rw [hb2] at hmem
    simp [agC4a, mkAgent] at hmem
  · rw [if_neg h0] at hb
    by_cases h1 : j = 1
    · rw [if_pos h1] at hb
      have hb2 : b = agC4b := (Option.some.inj hb).symm
      rw [hb2] at hmem
      have hi : i = 0 := by simpa [agC4b, mkAgent] using hmem
      left
      refine ⟨agC4a, ?_, ?_⟩
      · rw [getAgent_simC4w, hi]
        rfl
      · rw [h1]
        rfl
    · rw [if_neg h1] at hb
      exact absurd hb (by simp)

theorem pending_requests_two_sided_witness :
    (Rout (updatePendingRequests simC4w) 0 1 ↔ Rin (updatePendingRequests simC4w) 0 1) ∧
    (Rout (updatePendingRequests simC4w) 0 1 →
      goodLink (updatePendingRequests simC4w) 0 1 ∧
      goodLink (updatePendingRequests simC4w) 1 0) := by
  have h := pending_requests_two_sided simC4w (by decide) (by unfold NodupIn; decide)
    simC4w_H1 simC4w_H2
  exact ⟨h.1 0 1, h.2 0 1⟩

end WorldSim
